import Mathlib

/-!
Verification development for the imkerutils "exquisite" canvas-growth
subsystem.  The Python sources under `imkerutils/exquisite` are shallowly
embedded here: PIL images become total rasters (dimensions plus a pixel
function over integer coordinates, matching PIL's clipping/zero-fill
behaviour of `crop` and `paste`), Python exceptions become `Except`
values, and Python floats are modelled by exact rationals.
-/

namespace Imker

/-- An RGB pixel: the red, green and blue channel values (8-bit in PIL;
the model carries plain naturals and states range hypotheses where the
arithmetic needs them). -/
def Pix : Type := ℕ × ℕ × ℕ

instance : DecidableEq Pix := by unfold Pix; infer_instance

instance : BEq Pix := by unfold Pix; infer_instance

instance : LawfulBEq Pix := by unfold Pix; infer_instance

instance : Inhabited Pix := ⟨(0, 0, 0)⟩

/-- A raster of `α`-valued pixels: a width, a height, and a total pixel
function over integer coordinates.  Pixels are meaningful on
`[0, w) x [0, h)`; the total function lets PIL's out-of-bounds clipping
in `crop`/`paste` be modelled without partiality. -/
structure Ras (α : Type) where
  w : ℕ
  h : ℕ
  px : ℤ → ℤ → α

/-- An RGB image (PIL mode "RGB"). -/
def Img : Type := Ras Pix

/-- A single-channel image (PIL mode "L"). -/
def GImg : Type := Ras ℕ

/-- A constant-fill image, `Image.new(mode, (w, h), c)`. -/
def Ras.mkFill (w h : ℕ) (c : α) : Ras α := ⟨w, h, fun _ _ => c⟩

/-- `img.crop((l, t, r, b))`: the box may extend outside the source, in
which case PIL fills with the zero pixel (`default`). -/
def Ras.crop [Inhabited α] (im : Ras α) (l t r b : ℤ) : Ras α :=
  ⟨(r - l).toNat, (b - t).toNat, fun x y =>
    if 0 ≤ x + l ∧ x + l < (im.w : ℤ) ∧ 0 ≤ y + t ∧ y + t < (im.h : ℤ) then
      im.px (x + l) (y + t)
    else default⟩

/-- `dst.paste(src, (ox, oy))`: the source is clipped to the destination
bounds; offsets may be negative. -/
def Ras.paste (dst src : Ras α) (ox oy : ℤ) : Ras α :=
  ⟨dst.w, dst.h, fun x y =>
    if 0 ≤ x ∧ x < (dst.w : ℤ) ∧ 0 ≤ y ∧ y < (dst.h : ℤ) ∧
       ox ≤ x ∧ x < ox + (src.w : ℤ) ∧ oy ≤ y ∧ y < oy + (src.h : ℤ) then
      src.px (x - ox) (y - oy)
    else dst.px x y⟩

/-- The four extension modes of `tile_mode.ExtendMode`. -/
inductive Mode
  | x_ltr
  | x_rtl
  | y_ttb
  | y_btt
deriving DecidableEq

/-- `tile_mode.TILE_PX`. -/
def TILE_PX : ℕ := 1024

/-- `tile_mode.HALF_PX`. -/
def HALF_PX : ℕ := 512

/-- `tile_mode.BAND_PX`. -/
def BAND_PX : ℕ := 512

/-- `tile_mode.OVERLAP_PX`. -/
def OVERLAP_PX : ℕ := 256

/-- `tile_mode.ADVANCE_PX`. -/
def ADVANCE_PX : ℕ := 512

/-- `tile_mode.PATCH_PX = OVERLAP_PX + ADVANCE_PX`. -/
def PATCH_PX : ℕ := OVERLAP_PX + ADVANCE_PX

/-- `tile_mode.EXT_PX` (backward-compatible alias for the advance). -/
def EXT_PX : ℕ := ADVANCE_PX

/-- `tile_mode.extract_conditioning_band`: crop the extremal 512px strip
at the frontier implied by the mode; `ValueError`s become `.error`.  The
internal `AssertionError` re-checks of the band size always hold for
these crops and are kept as explicit guards. -/
def extract_conditioning_band (canvas : Img) (mode : Mode) : Except String Img :=
  let w := canvas.w
  let h := canvas.h
  match mode with
  | .x_ltr | .x_rtl =>
    if h ≠ TILE_PX then .error "Phase A requires canvas height == TILE_PX" else
    if w < BAND_PX then .error "Canvas width too small for band" else
    let band :=
      match mode with
      | .x_ltr => canvas.crop ((w : ℤ) - BAND_PX) 0 (w : ℤ) (h : ℤ)
      | _ => canvas.crop 0 0 (BAND_PX : ℤ) (h : ℤ)
    if (band.w, band.h) ≠ (BAND_PX, TILE_PX) then .error "Band size mismatch" else
    .ok band
  | .y_ttb | .y_btt =>
    if w ≠ TILE_PX then .error "Phase A requires canvas width == TILE_PX" else
    if h < BAND_PX then .error "Canvas height too small for band" else
    let band :=
      match mode with
      | .y_ttb => canvas.crop 0 ((h : ℤ) - BAND_PX) (w : ℤ) (h : ℤ)
      | _ => canvas.crop 0 0 (w : ℤ) (BAND_PX : ℤ)
    if (band.w, band.h) ≠ (TILE_PX, BAND_PX) then .error "Band size mismatch" else
    .ok band

/-- `tile_mode.split_tile`: split a 1024x1024 tile at `HALF_PX` into the
conditioning half and the generated half (in that order). -/
def split_tile (tile : Img) (mode : Mode) : Except String (Img × Img) :=
  if (tile.w, tile.h) ≠ (TILE_PX, TILE_PX) then .error "Tile must be TILE_PX x TILE_PX" else
  match mode with
  | .x_ltr =>
    .ok (tile.crop 0 0 (HALF_PX : ℤ) (TILE_PX : ℤ), tile.crop (HALF_PX : ℤ) 0 (TILE_PX : ℤ) (TILE_PX : ℤ))
  | .x_rtl =>
    .ok (tile.crop (HALF_PX : ℤ) 0 (TILE_PX : ℤ) (TILE_PX : ℤ), tile.crop 0 0 (HALF_PX : ℤ) (TILE_PX : ℤ))
  | .y_ttb =>
    .ok (tile.crop 0 0 (TILE_PX : ℤ) (HALF_PX : ℤ), tile.crop 0 (HALF_PX : ℤ) (TILE_PX : ℤ) (TILE_PX : ℤ))
  | .y_btt =>
    .ok (tile.crop 0 (HALF_PX : ℤ) (TILE_PX : ℤ) (TILE_PX : ℤ), tile.crop 0 0 (TILE_PX : ℤ) (HALF_PX : ℤ))

/-- `tile_mode._tile_patch_for_overlap_glue`: the trimmed-extension patch
`tile[HALF_PX - OVERLAP_PX, HALF_PX + ADVANCE_PX)` along the growth axis,
for every mode.  The constant assertion `b == TILE_PX` of the source
holds definitionally. -/
def tile_patch_for_overlap_glue (tile : Img) (mode : Mode) : Except String Img :=
  if (tile.w, tile.h) ≠ (TILE_PX, TILE_PX) then .error "Tile must be TILE_PX x TILE_PX" else
  let a : ℤ := (HALF_PX : ℤ) - OVERLAP_PX
  let b : ℤ := (HALF_PX : ℤ) + ADVANCE_PX
  match mode with
  | .x_ltr | .x_rtl => .ok (tile.crop a 0 b (TILE_PX : ℤ))
  | .y_ttb | .y_btt => .ok (tile.crop 0 a (TILE_PX : ℤ) b)

/-- `tile_mode.glue`: allocate a canvas grown by `ADVANCE_PX` along the
growth axis; paste the old canvas and the trimmed patch according to the
mode (patch last, so it wins on the overlap). -/
def glue (canvas tile : Img) (mode : Mode) : Except String Img :=
  let w := canvas.w
  let h := canvas.h
  match mode with
  | .x_ltr | .x_rtl =>
    if h ≠ TILE_PX then .error "Phase A requires canvas height == TILE_PX" else
    match tile_patch_for_overlap_glue tile mode with
    | .error e => .error e
    | .ok patch =>
      let out := Ras.mkFill (w + ADVANCE_PX) h ((0, 0, 0) : Pix)
      match mode with
      | .x_ltr => .ok ((out.paste canvas 0 0).paste patch ((w : ℤ) - OVERLAP_PX) 0)
      | _ => .ok ((out.paste canvas (ADVANCE_PX : ℤ) 0).paste patch 0 0)
  | .y_ttb | .y_btt =>
    if w ≠ TILE_PX then .error "Phase A requires canvas width == TILE_PX" else
    match tile_patch_for_overlap_glue tile mode with
    | .error e => .error e
    | .ok patch =>
      let out := Ras.mkFill w (h + ADVANCE_PX) ((0, 0, 0) : Pix)
      match mode with
      | .y_ttb => .ok ((out.paste canvas 0 0).paste patch 0 ((h : ℤ) - OVERLAP_PX))
      | _ => .ok ((out.paste canvas 0 (ADVANCE_PX : ℤ)).paste patch 0 0)

/-- `tile_mode.expected_next_canvas_size`. -/
def expected_next_canvas_size (canvas : Img) (mode : Mode) : ℕ × ℕ :=
  match mode with
  | .x_ltr | .x_rtl => (canvas.w + ADVANCE_PX, canvas.h)
  | .y_ttb | .y_btt => (canvas.w, canvas.h + ADVANCE_PX)

theorem Ras.paste_px_in (dst src : Ras α) (ox oy x y : ℤ)
    (hb : 0 ≤ x ∧ x < (dst.w : ℤ) ∧ 0 ≤ y ∧ y < (dst.h : ℤ) ∧
      ox ≤ x ∧ x < ox + (src.w : ℤ) ∧ oy ≤ y ∧ y < oy + (src.h : ℤ)) :
    (dst.paste src ox oy).px x y = src.px (x - ox) (y - oy) := by
  simp [Ras.paste, hb]

theorem Ras.paste_px_out (dst src : Ras α) (ox oy x y : ℤ)
    (hb : ¬(0 ≤ x ∧ x < (dst.w : ℤ) ∧ 0 ≤ y ∧ y < (dst.h : ℤ) ∧
      ox ≤ x ∧ x < ox + (src.w : ℤ) ∧ oy ≤ y ∧ y < oy + (src.h : ℤ))) :
    (dst.paste src ox oy).px x y = dst.px x y := by
  simp only [Ras.paste]
  exact if_neg hb

theorem Ras.crop_px_in [Inhabited α] (im : Ras α) (l t r b x y : ℤ)
    (hb : 0 ≤ x + l ∧ x + l < (im.w : ℤ) ∧ 0 ≤ y + t ∧ y + t < (im.h : ℤ)) :
    (im.crop l t r b).px x y = im.px (x + l) (y + t) := by
  simp [Ras.crop, hb]

theorem Ras.crop_w [Inhabited α] (im : Ras α) (l t r b : ℤ) :
    (im.crop l t r b).w = (r - l).toNat := rfl

theorem Ras.crop_h [Inhabited α] (im : Ras α) (l t r b : ℤ) :
    (im.crop l t r b).h = (b - t).toNat := rfl

theorem Ras.paste_w (dst src : Ras α) (ox oy : ℤ) : (dst.paste src ox oy).w = dst.w := rfl

theorem Ras.paste_h (dst src : Ras α) (ox oy : ℤ) : (dst.paste src ox oy).h = dst.h := rfl

theorem Ras.mkFill_w (w h : ℕ) (c : α) : (Ras.mkFill w h c).w = w := rfl

theorem Ras.mkFill_h (w h : ℕ) (c : α) : (Ras.mkFill w h c).h = h := rfl

/-- C1: for every RGB canvas whose non-growth axis equals 1024 and every
1024x1024 tile, in each of the four modes `glue` returns a new canvas
whose growth-axis length is the old length plus `ADVANCE_PX = 512` and
whose non-growth axis is unchanged; the pasted patch is the region of the
tile spanning `[HALF_PX - OVERLAP_PX, HALF_PX + ADVANCE_PX) = [256, 1024)`
along the growth axis; for the forward modes (`x_ltr`, `y_ttb`) the old
canvas sits at the origin and the patch at `old_length - OVERLAP_PX`, and
for the reverse modes (`x_rtl`, `y_btt`) the old canvas is shifted by
`ADVANCE_PX` and the patch sits at the origin, symmetrically across the
two axes. -/
theorem C1_glue_white_diagram_contract (canvas tile : Img) (mode : Mode)
    (hc : match mode with
      | .x_ltr | .x_rtl => canvas.h = TILE_PX
      | .y_ttb | .y_btt => canvas.w = TILE_PX)
    (htw : tile.w = TILE_PX) (hth : tile.h = TILE_PX) :
    ∃ out, glue canvas tile mode = .ok out ∧
      match mode with
      | .x_ltr =>
        out.w = canvas.w + ADVANCE_PX ∧ out.h = canvas.h ∧
        (∀ x y : ℤ, 0 ≤ x → x < (canvas.w : ℤ) - (OVERLAP_PX : ℤ) →
          0 ≤ y → y < (canvas.h : ℤ) → out.px x y = canvas.px x y) ∧
        (∀ x y : ℤ, 0 ≤ x → (canvas.w : ℤ) - (OVERLAP_PX : ℤ) ≤ x →
          x < (canvas.w : ℤ) + (ADVANCE_PX : ℤ) → 0 ≤ y → y < (canvas.h : ℤ) →
          out.px x y =
            tile.px (x - ((canvas.w : ℤ) - (OVERLAP_PX : ℤ)) + ((HALF_PX : ℤ) - (OVERLAP_PX : ℤ))) y)
      | .x_rtl =>
        out.w = canvas.w + ADVANCE_PX ∧ out.h = canvas.h ∧
        (∀ x y : ℤ, 0 ≤ x → x < (PATCH_PX : ℤ) → x < (canvas.w : ℤ) + (ADVANCE_PX : ℤ) →
          0 ≤ y → y < (canvas.h : ℤ) →
          out.px x y = tile.px (x + ((HALF_PX : ℤ) - (OVERLAP_PX : ℤ))) y) ∧
        (∀ x y : ℤ, (PATCH_PX : ℤ) ≤ x → x < (canvas.w : ℤ) + (ADVANCE_PX : ℤ) →
          0 ≤ y → y < (canvas.h : ℤ) →
          out.px x y = canvas.px (x - (ADVANCE_PX : ℤ)) y)
      | .y_ttb =>
        out.w = canvas.w ∧ out.h = canvas.h + ADVANCE_PX ∧
        (∀ x y : ℤ, 0 ≤ x → x < (canvas.w : ℤ) →
          0 ≤ y → y < (canvas.h : ℤ) - (OVERLAP_PX : ℤ) → out.px x y = canvas.px x y) ∧
        (∀ x y : ℤ, 0 ≤ x → x < (canvas.w : ℤ) →
          0 ≤ y → (canvas.h : ℤ) - (OVERLAP_PX : ℤ) ≤ y → y < (canvas.h : ℤ) + (ADVANCE_PX : ℤ) →
          out.px x y =
            tile.px x (y - ((canvas.h : ℤ) - (OVERLAP_PX : ℤ)) + ((HALF_PX : ℤ) - (OVERLAP_PX : ℤ))))
      | .y_btt =>
        out.w = canvas.w ∧ out.h = canvas.h + ADVANCE_PX ∧
        (∀ x y : ℤ, 0 ≤ x → x < (canvas.w : ℤ) →
          0 ≤ y → y < (PATCH_PX : ℤ) → y < (canvas.h : ℤ) + (ADVANCE_PX : ℤ) →
          out.px x y = tile.px x (y + ((HALF_PX : ℤ) - (OVERLAP_PX : ℤ)))) ∧
        (∀ x y : ℤ, 0 ≤ x → x < (canvas.w : ℤ) →
          (PATCH_PX : ℤ) ≤ y → y < (canvas.h : ℤ) + (ADVANCE_PX : ℤ) →
          out.px x y = canvas.px x (y - (ADVANCE_PX : ℤ))) := by
  cases mode with
  | x_ltr =>
    have hc' : canvas.h = TILE_PX := hc
    have hglue : glue canvas tile .x_ltr = .ok
        (((Ras.mkFill (canvas.w + ADVANCE_PX) canvas.h ((0, 0, 0) : Pix)).paste canvas 0 0).paste
          (tile.crop ((HALF_PX : ℤ) - (OVERLAP_PX : ℤ)) 0 ((HALF_PX : ℤ) + (ADVANCE_PX : ℤ)) (TILE_PX : ℤ))
          ((canvas.w : ℤ) - (OVERLAP_PX : ℤ)) 0) := by
      simp only [glue, tile_patch_for_overlap_glue]
      rw [if_neg (by simp [hc']), if_neg (by simp [htw, hth])]
    refine ⟨_, hglue, ?_, ?_, ?_, ?_⟩
    · rfl
    · rfl
    · intro x y hx0 hx1 hy0 hy1
      rw [Ras.paste_px_out _ _ _ _ _ _ (by
            simp only [Ras.paste_w, Ras.paste_h, Ras.mkFill_w, Ras.mkFill_h, Ras.crop_w, Ras.crop_h,
          TILE_PX, HALF_PX, BAND_PX, OVERLAP_PX, ADVANCE_PX, PATCH_PX] at *; omega),
          Ras.paste_px_in _ _ _ _ _ _ (by
            simp only [Ras.paste_w, Ras.paste_h, Ras.mkFill_w, Ras.mkFill_h, Ras.crop_w, Ras.crop_h,
          TILE_PX, HALF_PX, BAND_PX, OVERLAP_PX, ADVANCE_PX, PATCH_PX] at *; omega)]
      simp
    · intro x y hx0 hx1 hx2 hy0 hy1
      rw [Ras.paste_px_in _ _ _ _ _ _ (by
            simp only [Ras.paste_w, Ras.paste_h, Ras.mkFill_w, Ras.mkFill_h, Ras.crop_w, Ras.crop_h,
          TILE_PX, HALF_PX, BAND_PX, OVERLAP_PX, ADVANCE_PX, PATCH_PX] at *; omega),
          Ras.crop_px_in _ _ _ _ _ _ _ (by
            simp only [Ras.paste_w, Ras.paste_h, Ras.mkFill_w, Ras.mkFill_h, Ras.crop_w, Ras.crop_h,
          TILE_PX, HALF_PX, BAND_PX, OVERLAP_PX, ADVANCE_PX, PATCH_PX] at *; omega)]
      simp
  | x_rtl =>
    have hc' : canvas.h = TILE_PX := hc
    have hglue : glue canvas tile .x_rtl = .ok
        (((Ras.mkFill (canvas.w + ADVANCE_PX) canvas.h ((0, 0, 0) : Pix)).paste canvas (ADVANCE_PX : ℤ) 0).paste
          (tile.crop ((HALF_PX : ℤ) - (OVERLAP_PX : ℤ)) 0 ((HALF_PX : ℤ) + (ADVANCE_PX : ℤ)) (TILE_PX : ℤ))
          0 0) := by
      simp only [glue, tile_patch_for_overlap_glue]
      rw [if_neg (by simp [hc']), if_neg (by simp [htw, hth])]
    refine ⟨_, hglue, ?_, ?_, ?_, ?_⟩
    · rfl
    · rfl
    · intro x y hx0 hx1 hx2 hy0 hy1
      rw [Ras.paste_px_in _ _ _ _ _ _ (by
            simp only [Ras.paste_w, Ras.paste_h, Ras.mkFill_w, Ras.mkFill_h, Ras.crop_w, Ras.crop_h,
          TILE_PX, HALF_PX, BAND_PX, OVERLAP_PX, ADVANCE_PX, PATCH_PX] at *; omega),
          Ras.crop_px_in _ _ _ _ _ _ _ (by
            simp only [Ras.paste_w, Ras.paste_h, Ras.mkFill_w, Ras.mkFill_h, Ras.crop_w, Ras.crop_h,
          TILE_PX, HALF_PX, BAND_PX, OVERLAP_PX, ADVANCE_PX, PATCH_PX] at *; omega)]
      simp
    · intro x y hx0 hx1 hy0 hy1
      rw [Ras.paste_px_out _ _ _ _ _ _ (by
            simp only [Ras.paste_w, Ras.paste_h, Ras.mkFill_w, Ras.mkFill_h, Ras.crop_w, Ras.crop_h,
          TILE_PX, HALF_PX, BAND_PX, OVERLAP_PX, ADVANCE_PX, PATCH_PX] at *; omega),
          Ras.paste_px_in _ _ _ _ _ _ (by
            simp only [Ras.paste_w, Ras.paste_h, Ras.mkFill_w, Ras.mkFill_h, Ras.crop_w, Ras.crop_h,
          TILE_PX, HALF_PX, BAND_PX, OVERLAP_PX, ADVANCE_PX, PATCH_PX] at *; omega)]
      simp
  | y_ttb =>
    have hc' : canvas.w = TILE_PX := hc
    have hglue : glue canvas tile .y_ttb = .ok
        (((Ras.mkFill canvas.w (canvas.h + ADVANCE_PX) ((0, 0, 0) : Pix)).paste canvas 0 0).paste
          (tile.crop 0 ((HALF_PX : ℤ) - (OVERLAP_PX : ℤ)) (TILE_PX : ℤ) ((HALF_PX : ℤ) + (ADVANCE_PX : ℤ)))
          0 ((canvas.h : ℤ) - (OVERLAP_PX : ℤ))) := by
      simp only [glue, tile_patch_for_overlap_glue]
      rw [if_neg (by simp [hc']), if_neg (by simp [htw, hth])]
    refine ⟨_, hglue, ?_, ?_, ?_, ?_⟩
    · rfl
    · rfl
    · intro x y hx0 hx1 hy0 hy1
      rw [Ras.paste_px_out _ _ _ _ _ _ (by
            simp only [Ras.paste_w, Ras.paste_h, Ras.mkFill_w, Ras.mkFill_h, Ras.crop_w, Ras.crop_h,
          TILE_PX, HALF_PX, BAND_PX, OVERLAP_PX, ADVANCE_PX, PATCH_PX] at *; omega),
          Ras.paste_px_in _ _ _ _ _ _ (by
            simp only [Ras.paste_w, Ras.paste_h, Ras.mkFill_w, Ras.mkFill_h, Ras.crop_w, Ras.crop_h,
          TILE_PX, HALF_PX, BAND_PX, OVERLAP_PX, ADVANCE_PX, PATCH_PX] at *; omega)]
      simp
    · intro x y hx0 hx1 hy0 hy1 hy2
      rw [Ras.paste_px_in _ _ _ _ _ _ (by
            simp only [Ras.paste_w, Ras.paste_h, Ras.mkFill_w, Ras.mkFill_h, Ras.crop_w, Ras.crop_h,
          TILE_PX, HALF_PX, BAND_PX, OVERLAP_PX, ADVANCE_PX, PATCH_PX] at *; omega),
          Ras.crop_px_in _ _ _ _ _ _ _ (by
            simp only [Ras.paste_w, Ras.paste_h, Ras.mkFill_w, Ras.mkFill_h, Ras.crop_w, Ras.crop_h,
          TILE_PX, HALF_PX, BAND_PX, OVERLAP_PX, ADVANCE_PX, PATCH_PX] at *; omega)]
      simp
  | y_btt =>
    have hc' : canvas.w = TILE_PX := hc
    have hglue : glue canvas tile .y_btt = .ok
        (((Ras.mkFill canvas.w (canvas.h + ADVANCE_PX) ((0, 0, 0) : Pix)).paste canvas 0 (ADVANCE_PX : ℤ)).paste
          (tile.crop 0 ((HALF_PX : ℤ) - (OVERLAP_PX : ℤ)) (TILE_PX : ℤ) ((HALF_PX : ℤ) + (ADVANCE_PX : ℤ)))
          0 0) := by
      simp only [glue, tile_patch_for_overlap_glue]
      rw [if_neg (by simp [hc']), if_neg (by simp [htw, hth])]
    refine ⟨_, hglue, ?_, ?_, ?_, ?_⟩
    · rfl
    · rfl
    · intro x y hx0 hx1 hy0 hy1 hy2
      rw [Ras.paste_px_in _ _ _ _ _ _ (by
            simp only [Ras.paste_w, Ras.paste_h, Ras.mkFill_w, Ras.mkFill_h, Ras.crop_w, Ras.crop_h,
          TILE_PX, HALF_PX, BAND_PX, OVERLAP_PX, ADVANCE_PX, PATCH_PX] at *; omega),
          Ras.crop_px_in _ _ _ _ _ _ _ (by
            simp only [Ras.paste_w, Ras.paste_h, Ras.mkFill_w, Ras.mkFill_h, Ras.crop_w, Ras.crop_h,
          TILE_PX, HALF_PX, BAND_PX, OVERLAP_PX, ADVANCE_PX, PATCH_PX] at *; omega)]
      simp
    · intro x y hx0 hx1 hy0 hy1
      rw [Ras.paste_px_out _ _ _ _ _ _ (by
            simp only [Ras.paste_w, Ras.paste_h, Ras.mkFill_w, Ras.mkFill_h, Ras.crop_w, Ras.crop_h,
          TILE_PX, HALF_PX, BAND_PX, OVERLAP_PX, ADVANCE_PX, PATCH_PX] at *; omega),
          Ras.paste_px_in _ _ _ _ _ _ (by
            simp only [Ras.paste_w, Ras.paste_h, Ras.mkFill_w, Ras.mkFill_h, Ras.crop_w, Ras.crop_h,
          TILE_PX, HALF_PX, BAND_PX, OVERLAP_PX, ADVANCE_PX, PATCH_PX] at *; omega)]
      simp

/-- A concrete 1024x1024 gray canvas used by witnesses. -/
def canvasGray : Img := Ras.mkFill 1024 1024 ((128, 128, 128) : Pix)

/-- A concrete 1024x1024 dark tile used by witnesses. -/
def tileDark : Img := Ras.mkFill 1024 1024 ((7, 7, 7) : Pix)

/-- Witness for C1: the glue contract holds at a concrete 1024x1024 gray
canvas and a concrete tile in mode `x_ltr`. -/
theorem C1_glue_white_diagram_contract_witness :
    canvasGray.h = TILE_PX ∧ tileDark.w = TILE_PX ∧ tileDark.h = TILE_PX ∧
    ∃ out, glue canvasGray tileDark Mode.x_ltr = .ok out ∧
      out.w = canvasGray.w + ADVANCE_PX ∧ out.h = canvasGray.h := by
  refine ⟨rfl, rfl, rfl, ?_⟩
  obtain ⟨out, hok, h1, h2, -, -⟩ :=
    C1_glue_white_diagram_contract canvasGray tileDark .x_ltr rfl rfl rfl
  exact ⟨out, hok, h1, h2⟩

/-- An RGBA pixel (PIL mode "RGBA"): red, green, blue, alpha. -/
def PixA : Type := ℕ × ℕ × ℕ × ℕ

instance : DecidableEq PixA := by unfold PixA; infer_instance

instance : Inhabited PixA := ⟨(0, 0, 0, 0)⟩

/-- The alpha channel of an RGBA pixel. -/
def PixA.alpha (p : PixA) : ℕ := p.2.2.2

/-- `reference_tile._set_alpha_rect`: replace the alpha channel inside
`(left, top, right, bottom)` with `alpha`, validating the box against
`TILE_PX` exactly as the source does. -/
def set_alpha_rect (mask : Ras PixA) (l t r b : ℤ) (alpha : ℕ) : Except String (Ras PixA) :=
  if ¬ (0 ≤ l ∧ l ≤ r ∧ r ≤ (TILE_PX : ℤ) ∧ 0 ≤ t ∧ t ≤ b ∧ b ≤ (TILE_PX : ℤ)) then
    .error "Invalid alpha rect box"
  else
    .ok ⟨mask.w, mask.h, fun x y =>
      let p := mask.px x y
      if l ≤ x ∧ x < r ∧ t ≤ y ∧ y < b then (p.1, p.2.1, p.2.2.1, alpha) else p⟩

/-- `reference_tile.build_reference_tile_and_mask` with the opt-in seam
aids left at their default off values (`continuation_cue = False`,
`scaffold_fill = False`): the scaffold helper then returns a black fill
and the cue helper draws nothing, so the reference is the band pasted
into the conditioning half of a black tile, and the mask starts fully
opaque (preserve) with the new half carved out to alpha 0 (editable).
The aids never touch the mask. -/
def build_reference_tile_and_mask (conditioning_band : Img) (mode : Mode) :
    Except String (Img × Ras PixA) :=
  let band := conditioning_band
  match mode with
  | .x_ltr | .x_rtl =>
    if (band.w, band.h) ≠ (BAND_PX, TILE_PX) then .error "conditioning_band size mismatch" else
    let ref := Ras.mkFill TILE_PX TILE_PX ((0, 0, 0) : Pix)
    let mask0 : Ras PixA := Ras.mkFill TILE_PX TILE_PX ((0, 0, 0, 255) : PixA)
    let scaffold := Ras.mkFill 512 1024 ((0, 0, 0) : Pix)
    match mode with
    | .x_ltr =>
      match set_alpha_rect mask0 512 0 1024 1024 0 with
      | .error e => .error e
      | .ok mask => .ok (((ref.paste band 0 0).paste scaffold 512 0), mask)
    | _ =>
      match set_alpha_rect mask0 0 0 512 1024 0 with
      | .error e => .error e
      | .ok mask => .ok (((ref.paste band 512 0).paste scaffold 0 0), mask)
  | .y_ttb | .y_btt =>
    if (band.w, band.h) ≠ (TILE_PX, BAND_PX) then .error "conditioning_band size mismatch" else
    let ref := Ras.mkFill TILE_PX TILE_PX ((0, 0, 0) : Pix)
    let mask0 : Ras PixA := Ras.mkFill TILE_PX TILE_PX ((0, 0, 0, 255) : PixA)
    let scaffold := Ras.mkFill 1024 512 ((0, 0, 0) : Pix)
    match mode with
    | .y_ttb =>
      match set_alpha_rect mask0 0 512 1024 1024 0 with
      | .error e => .error e
      | .ok mask => .ok (((ref.paste band 0 0).paste scaffold 0 512), mask)
    | _ =>
      match set_alpha_rect mask0 0 0 1024 512 0 with
      | .error e => .error e
      | .ok mask => .ok (((ref.paste band 0 512).paste scaffold 0 0), mask)

/-- Whether a tile coordinate lies in the conditioning half for a mode
(the half that must reflect the band). -/
def inConditioningHalf (mode : Mode) (x y : ℤ) : Prop :=
  match mode with
  | .x_ltr => x < (HALF_PX : ℤ)
  | .x_rtl => (HALF_PX : ℤ) ≤ x
  | .y_ttb => y < (HALF_PX : ℤ)
  | .y_btt => (HALF_PX : ℤ) ≤ y

instance (mode : Mode) (x y : ℤ) : Decidable (inConditioningHalf mode x y) := by
  unfold inConditioningHalf
  cases mode <;> infer_instance

/-- C4 (amended): for every band matching the mode-implied shape, the
mask produced by `build_reference_tile_and_mask` marks the ENTIRE
conditioning half as must-preserve (alpha 255) — including the
`OVERLAP_PX`-thick strip nearest the seam — and the entire new half as
freely editable (alpha 0); no keep-only sub-region and no alpha ramp is
produced. -/
theorem C4_mask_preserves_whole_conditioning_half (band : Img) (mode : Mode)
    (hb : match mode with
      | .x_ltr | .x_rtl => band.w = BAND_PX ∧ band.h = TILE_PX
      | .y_ttb | .y_btt => band.w = TILE_PX ∧ band.h = BAND_PX) :
    ∃ ref mask, build_reference_tile_and_mask band mode = .ok (ref, mask) ∧
      ∀ x y : ℤ, 0 ≤ x → x < (TILE_PX : ℤ) → 0 ≤ y → y < (TILE_PX : ℤ) →
        (mask.px x y).alpha = if inConditioningHalf mode x y then 255 else 0 := by
  cases mode with
  | x_ltr =>
    obtain ⟨hw, hh⟩ := hb
    have hbuild : build_reference_tile_and_mask band .x_ltr = .ok
        (((Ras.mkFill TILE_PX TILE_PX ((0, 0, 0) : Pix)).paste band 0 0).paste
            (Ras.mkFill 512 1024 ((0, 0, 0) : Pix)) 512 0,
          ⟨TILE_PX, TILE_PX, fun x y =>
            let p := (Ras.mkFill TILE_PX TILE_PX ((0, 0, 0, 255) : PixA)).px x y
            if (512 : ℤ) ≤ x ∧ x < 1024 ∧ (0 : ℤ) ≤ y ∧ y < 1024 then
              (p.1, p.2.1, p.2.2.1, 0) else p⟩) := by
      simp only [build_reference_tile_and_mask, set_alpha_rect]
      rw [if_neg (by simp [hw, hh]), if_neg (by decide)]
      rfl
    refine ⟨_, _, hbuild, ?_⟩
    intro x y hx0 hx1 hy0 hy1
    simp only [inConditioningHalf, Ras.mkFill, PixA.alpha, HALF_PX, TILE_PX] at *
    split_ifs <;> simp_all <;> omega
  | x_rtl =>
    obtain ⟨hw, hh⟩ := hb
    have hbuild : build_reference_tile_and_mask band .x_rtl = .ok
        (((Ras.mkFill TILE_PX TILE_PX ((0, 0, 0) : Pix)).paste band 512 0).paste
            (Ras.mkFill 512 1024 ((0, 0, 0) : Pix)) 0 0,
          ⟨TILE_PX, TILE_PX, fun x y =>
            let p := (Ras.mkFill TILE_PX TILE_PX ((0, 0, 0, 255) : PixA)).px x y
            if (0 : ℤ) ≤ x ∧ x < 512 ∧ (0 : ℤ) ≤ y ∧ y < 1024 then
              (p.1, p.2.1, p.2.2.1, 0) else p⟩) := by
      simp only [build_reference_tile_and_mask, set_alpha_rect]
      rw [if_neg (by simp [hw, hh]), if_neg (by decide)]
      rfl
    refine ⟨_, _, hbuild, ?_⟩
    intro x y hx0 hx1 hy0 hy1
    simp only [inConditioningHalf, Ras.mkFill, PixA.alpha, HALF_PX, TILE_PX] at *
    split_ifs <;> simp_all <;> omega
  | y_ttb =>
    obtain ⟨hw, hh⟩ := hb
    have hbuild : build_reference_tile_and_mask band .y_ttb = .ok
        (((Ras.mkFill TILE_PX TILE_PX ((0, 0, 0) : Pix)).paste band 0 0).paste
            (Ras.mkFill 1024 512 ((0, 0, 0) : Pix)) 0 512,
          ⟨TILE_PX, TILE_PX, fun x y =>
            let p := (Ras.mkFill TILE_PX TILE_PX ((0, 0, 0, 255) : PixA)).px x y
            if (0 : ℤ) ≤ x ∧ x < 1024 ∧ (512 : ℤ) ≤ y ∧ y < 1024 then
              (p.1, p.2.1, p.2.2.1, 0) else p⟩) := by
      simp only [build_reference_tile_and_mask, set_alpha_rect]
      rw [if_neg (by simp [hw, hh]), if_neg (by decide)]
      rfl
    refine ⟨_, _, hbuild, ?_⟩
    intro x y hx0 hx1 hy0 hy1
    simp only [inConditioningHalf, Ras.mkFill, PixA.alpha, HALF_PX, TILE_PX] at *
    split_ifs <;> simp_all <;> omega
  | y_btt =>
    obtain ⟨hw, hh⟩ := hb
    have hbuild : build_reference_tile_and_mask band .y_btt = .ok
        (((Ras.mkFill TILE_PX TILE_PX ((0, 0, 0) : Pix)).paste band 0 512).paste
            (Ras.mkFill 1024 512 ((0, 0, 0) : Pix)) 0 0,
          ⟨TILE_PX, TILE_PX, fun x y =>
            let p := (Ras.mkFill TILE_PX TILE_PX ((0, 0, 0, 255) : PixA)).px x y
            if (0 : ℤ) ≤ x ∧ x < 1024 ∧ (0 : ℤ) ≤ y ∧ y < 512 then
              (p.1, p.2.1, p.2.2.1, 0) else p⟩) := by
      simp only [build_reference_tile_and_mask, set_alpha_rect]
      rw [if_neg (by simp [hw, hh]), if_neg (by decide)]
      rfl
    refine ⟨_, _, hbuild, ?_⟩
    intro x y hx0 hx1 hy0 hy1
    simp only [inConditioningHalf, Ras.mkFill, PixA.alpha, HALF_PX, TILE_PX] at *
    split_ifs <;> simp_all <;> omega

/-- The alpha value of the mask of a builder result at a coordinate. -/
def maskAlphaAt (r : Except String (Img × Ras PixA)) (x y : ℤ) : Option ℕ :=
  match r with
  | .ok (_, mask) => some ((mask.px x y).alpha)
  | .error _ => none

/-- A concrete vertical band (512 wide, 1024 tall) used for C4. -/
def bandV : Img := Ras.mkFill 512 1024 ((9, 9, 9) : Pix)

/-- Counterexample for C4: the claim says only the far keep sub-region of
the conditioning half (thickness `HALF_PX - OVERLAP_PX`, farthest from
the seam) is marked must-preserve, with the `OVERLAP_PX`-thick strip
nearest the seam editable or ramped toward free.  But at `(511, 0)` —
inside the overlap strip `[HALF_PX - OVERLAP_PX, HALF_PX) = [256, 512)`
of the conditioning half, directly at the seam — the produced mask still
has alpha 255 (must-preserve). -/
theorem C4_counterexample_overlap_strip_is_preserved :
    maskAlphaAt (build_reference_tile_and_mask bandV Mode.x_ltr) 511 0 = some 255 ∧
    (HALF_PX : ℤ) - (OVERLAP_PX : ℤ) ≤ 511 ∧ (511 : ℤ) < (HALF_PX : ℤ) := by
  refine ⟨?_, by decide, by decide⟩
  rfl

/-- Witness for C4 (amended): the mask characterization applied at a
concrete band in mode `x_ltr`. -/
theorem C4_mask_preserves_whole_conditioning_half_witness :
    (bandV.w = BAND_PX ∧ bandV.h = TILE_PX) ∧
    ∃ ref mask, build_reference_tile_and_mask bandV Mode.x_ltr = .ok (ref, mask) ∧
      ∀ x y : ℤ, 0 ≤ x → x < (TILE_PX : ℤ) → 0 ≤ y → y < (TILE_PX : ℤ) →
        (mask.px x y).alpha = if inConditioningHalf Mode.x_ltr x y then 255 else 0 :=
  ⟨⟨rfl, rfl⟩, C4_mask_preserves_whole_conditioning_half bandV .x_ltr ⟨rfl, rfl⟩⟩

/-- PIL `convert("L")` on one RGB pixel: the ITU-R 601-2 luma transform
as implemented (fixed point, truncating shift):
`(r * 19595 + g * 38470 + b * 7471) >> 16`. -/
def l_of_pix (p : Pix) : ℕ := (p.1 * 19595 + p.2.1 * 38470 + p.2.2 * 7471) >>> 16

/-- PIL `convert("L")` on an RGB image. -/
def convert_l (im : Img) : GImg := ⟨im.w, im.h, fun x y => l_of_pix (im.px x y)⟩

/-- One output pixel of PIL's `FIND_EDGES` 3x3 builtin filter on an "L"
image: border pixels are copied from the input; interior pixels get the
kernel `8*center - (sum of the 8 neighbours)` (divisor 1, offset 0),
clamped to `[0, 255]`.  The kernel is integer-valued so no float
rounding occurs. -/
def find_edges_px (g : GImg) (x y : ℤ) : ℕ :=
  if 1 ≤ x ∧ x + 1 < (g.w : ℤ) ∧ 1 ≤ y ∧ y + 1 < (g.h : ℤ) then
    (min 255 (max 0 (8 * (g.px x y : ℤ) -
      ((g.px (x - 1) (y - 1) : ℤ) + (g.px x (y - 1) : ℤ) + (g.px (x + 1) (y - 1) : ℤ) +
       (g.px (x - 1) y : ℤ) + (g.px (x + 1) y : ℤ) +
       (g.px (x - 1) (y + 1) : ℤ) + (g.px x (y + 1) : ℤ) + (g.px (x + 1) (y + 1) : ℤ))))).toNat
  else g.px x y

/-- `session._edge_map_find_edges`: grayscale then `FIND_EDGES`. -/
def edge_map_find_edges (im : Img) : GImg :=
  let g := convert_l im
  ⟨g.w, g.h, fun x y => find_edges_px g x y⟩

/-- `session._edge_weight_vector`: seam-proximity weights along the axis
normal to the seam; `hi = 1.0`, `lo = 0.2`, linearly interpolated.
Python float arithmetic is modelled by exact rationals. -/
def edge_weight_vector (mode : Mode) (length : ℕ) : List ℚ :=
  if length ≤ 1 then List.replicate length 1
  else
    match mode with
    | .x_ltr | .y_ttb =>
      (List.range length).map fun (i : ℕ) => 1 - (1 - 1 / 5) * ((i : ℚ) / ((length : ℚ) - 1))
    | .x_rtl | .y_btt =>
      (List.range length).map fun (i : ℕ) => 1 / 5 + (1 - 1 / 5) * ((i : ℚ) / ((length : ℚ) - 1))

/-- `session._edge_weighted_edge_mse_score`: negative weighted mean of
squared differences of the two edge maps; the denominator carries the
source's `1e-12` regularizer (modelled as the exact rational
`1 / 10 ^ 12`).  For x modes the weight runs over columns and is summed
per pixel; for y modes it runs over rows and is summed once per row,
exactly as in the source loops. -/
def edge_weighted_edge_mse_score (canvasStrip tileStrip : Img) (mode : Mode) :
    Except String ℚ :=
  if (canvasStrip.w, canvasStrip.h) ≠ (tileStrip.w, tileStrip.h) then .error "strip mismatch"
  else
    let e0 := edge_map_find_edges canvasStrip
    let e1 := edge_map_find_edges tileStrip
    let w := e0.w
    let h := e0.h
    let d : ℕ → ℕ → ℚ := fun x y => ((e0.px x y : ℚ) - (e1.px x y : ℚ))
    match mode with
    | .x_ltr | .x_rtl =>
      let weights := edge_weight_vector mode w
      let num := (Finset.range h).sum fun y =>
        (Finset.range w).sum fun x => weights.getD x 0 * (d x y * d x y)
      let denom := (Finset.range h).sum fun y =>
        (Finset.range w).sum fun x => weights.getD x 0
      .ok (-(num / (denom + 1 / 10 ^ 12)))
    | .y_ttb | .y_btt =>
      let weights := edge_weight_vector mode h
      let num := (Finset.range h).sum fun y =>
        (Finset.range w).sum fun x => weights.getD y 0 * (d x y * d x y)
      let denom := (Finset.range h).sum fun y => weights.getD y 0
      .ok (-(num / (denom + 1 / 10 ^ 12)))

theorem edge_weight_vector_pos (mode : Mode) (len i : ℕ) (h : i < len) :
    0 < (edge_weight_vector mode len).getD i 0 := by
  unfold edge_weight_vector
  by_cases hl : len ≤ 1
  · simp only [hl, if_true, List.getD_eq_getElem?_getD, List.getElem?_replicate]
    simp [h]
  · have hlen2 : (2 : ℕ) ≤ len := by omega
    have hq : (0 : ℚ) < (len : ℚ) - 1 := by
      have : (2 : ℚ) ≤ (len : ℚ) := by exact_mod_cast hlen2
      linarith
    have hfrac0 : (0 : ℚ) ≤ (i : ℚ) / ((len : ℚ) - 1) := by positivity
    have hfrac1 : (i : ℚ) / ((len : ℚ) - 1) ≤ 1 := by
      rw [div_le_one hq]
      have : (i : ℚ) ≤ (len : ℚ) - 1 := by
        have : (i : ℚ) + 1 ≤ (len : ℚ) := by exact_mod_cast h
        linarith
      exact this
    simp only [hl, if_false]
    cases mode <;>
      · simp only [List.getD_eq_getElem?_getD, List.getElem?_map, List.getElem?_range, h,
          if_pos, Option.map_some', Option.getD_some]
        nlinarith [hfrac0, hfrac1]

/-- Positive weights make a doubly-indexed weighted sum of squares vanish
exactly when every difference vanishes. -/
theorem sum_weighted_sq_eq_zero_iff (w h : ℕ) (wt d : ℕ → ℕ → ℚ)
    (hwt : ∀ x y, x < w → y < h → 0 < wt x y) :
    ((Finset.range h).sum fun y => (Finset.range w).sum fun x => wt x y * (d x y * d x y)) = 0 ↔
      ∀ x y, x < w → y < h → d x y = 0 := by
  have hterm : ∀ y ∈ Finset.range h, ∀ x ∈ Finset.range w, 0 ≤ wt x y * (d x y * d x y) := by
    intro y hy x hx
    exact mul_nonneg (le_of_lt (hwt x y (Finset.mem_range.mp hx) (Finset.mem_range.mp hy)))
      (mul_self_nonneg _)
  constructor
  · intro h0 x y hx hy
    have houter := (Finset.sum_eq_zero_iff_of_nonneg
      (fun y hy => Finset.sum_nonneg (hterm y hy))).mp h0
    have hinner := (Finset.sum_eq_zero_iff_of_nonneg
      (hterm y (Finset.mem_range.mpr hy))).mp (houter y (Finset.mem_range.mpr hy))
    have := hinner x (Finset.mem_range.mpr hx)
    rcases mul_eq_zero.mp this with hz | hz
    · exact absurd hz (ne_of_gt (hwt x y hx hy))
    · exact mul_self_eq_zero.mp hz
  · intro hd
    refine Finset.sum_eq_zero fun y hy => Finset.sum_eq_zero fun x hx => ?_
    rw [hd x y (Finset.mem_range.mp hx) (Finset.mem_range.mp hy)]
    ring

/-- Equality of two images on their pixel grid (the content `tobytes()`
would compare, given equal dimensions). -/
def pixEqOnGrid (a b : Img) : Prop :=
  ∀ x y : ℤ, 0 ≤ x → x < (a.w : ℤ) → 0 ≤ y → y < (a.h : ℤ) → a.px x y = b.px x y

/-- Equality of the two strips' grayscale edge maps on the pixel grid. -/
def edgeMapsEqOnGrid (a b : Img) : Prop :=
  ∀ x y : ℤ, 0 ≤ x → x < (a.w : ℤ) → 0 ≤ y → y < (a.h : ℤ) →
    (edge_map_find_edges a).px x y = (edge_map_find_edges b).px x y

theorem pixEqOnGrid_edgeMapsEq (a b : Img) (hw : a.w = b.w) (hh : a.h = b.h)
    (hp : pixEqOnGrid a b) : edgeMapsEqOnGrid a b := by
  intro x y hx0 hx1 hy0 hy1
  have hg : ∀ u v : ℤ, 0 ≤ u → u < (a.w : ℤ) → 0 ≤ v → v < (a.h : ℤ) →
      (convert_l a).px u v = (convert_l b).px u v := by
    intro u v h1 h2 h3 h4
    simp only [convert_l]
    rw [hp u v h1 h2 h3 h4]
  simp only [edge_map_find_edges, find_edges_px, convert_l, hw, hh]
  by_cases hint : 1 ≤ x ∧ x + 1 < (b.w : ℤ) ∧ 1 ≤ y ∧ y + 1 < (b.h : ℤ)
  · rw [if_pos hint, if_pos hint]
    have hpx : ∀ u v : ℤ, 0 ≤ u → u < (b.w : ℤ) → 0 ≤ v → v < (b.h : ℤ) →
        a.px u v = b.px u v := by
      intro u v h1 h2 h3 h4
      exact hp u v h1 (by rw [hw]; exact h2) h3 (by rw [hh]; exact h4)
    obtain ⟨hi1, hi2, hi3, hi4⟩ := hint
    rw [hpx x y (by omega) (by omega) (by omega) (by omega),
      hpx (x - 1) (y - 1) (by omega) (by omega) (by omega) (by omega),
      hpx x (y - 1) (by omega) (by omega) (by omega) (by omega),
      hpx (x + 1) (y - 1) (by omega) (by omega) (by omega) (by omega),
      hpx (x - 1) y (by omega) (by omega) (by omega) (by omega),
      hpx (x + 1) y (by omega) (by omega) (by omega) (by omega),
      hpx (x - 1) (y + 1) (by omega) (by omega) (by omega) (by omega),
      hpx x (y + 1) (by omega) (by omega) (by omega) (by omega),
      hpx (x + 1) (y + 1) (by omega) (by omega) (by omega) (by omega)]
  · rw [if_neg hint, if_neg hint]
    rw [hp x y hx0 hx1 hy0 hy1]

instance {ε α : Type} [DecidableEq ε] [DecidableEq α] : DecidableEq (Except ε α) := fun a b => by
  cases a with
  | error e1 =>
    cases b with
    | error e2 =>
      exact if h : e1 = e2 then isTrue (by subst h; rfl) else
        isFalse (by intro hc; apply h; injection hc)
    | ok v2 => exact isFalse (by intro hc; exact Except.noConfusion hc)
  | ok v1 =>
    cases b with
    | error e2 => exact isFalse (by intro hc; exact Except.noConfusion hc)
    | ok v2 =>
      exact if h : v1 = v2 then isTrue (by subst h; rfl) else
        isFalse (by intro hc; apply h; injection hc)

theorem neg_div_reg_nonpos (num den : ℚ) (hn : 0 ≤ num) (hd : 0 ≤ den) :
    -(num / (den + 1 / 10 ^ 12)) ≤ 0 := by
  have he : (0 : ℚ) < 1 / 10 ^ 12 := by norm_num
  have hD : (0 : ℚ) < den + 1 / 10 ^ 12 := by linarith
  have := div_nonneg hn hD.le
  linarith

theorem neg_div_reg_eq_zero_iff (num den : ℚ) (hd : 0 ≤ den) :
    (-(num / (den + 1 / 10 ^ 12)) = 0) ↔ num = 0 := by
  have he : (0 : ℚ) < 1 / 10 ^ 12 := by norm_num
  have hD : (0 : ℚ) < den + 1 / 10 ^ 12 := by linarith
  rw [neg_eq_zero, div_eq_zero_iff]
  constructor
  · rintro (h | h)
    · exact h
    · exact absurd h (ne_of_gt hD)
  · exact fun h => Or.inl h

theorem sum_wx_sq_eq_zero_iff (w h : ℕ) (wt : ℕ → ℚ) (d : ℕ → ℕ → ℚ)
    (hwt : ∀ x, x < w → 0 < wt x) :
    (((Finset.range h).sum fun y => (Finset.range w).sum fun x => wt x * (d x y * d x y)) = 0) ↔
      ∀ x y, x < w → y < h → d x y = 0 :=
  sum_weighted_sq_eq_zero_iff w h (fun x _ => wt x) d (fun x y hx _ => hwt x hx)

theorem sum_wy_sq_eq_zero_iff (w h : ℕ) (wt : ℕ → ℚ) (d : ℕ → ℕ → ℚ)
    (hwt : ∀ y, y < h → 0 < wt y) :
    (((Finset.range h).sum fun y => (Finset.range w).sum fun x => wt y * (d x y * d x y)) = 0) ↔
      ∀ x y, x < w → y < h → d x y = 0 :=
  sum_weighted_sq_eq_zero_iff w h (fun _ y => wt y) d (fun _ y _ hy => hwt y hy)

theorem dzero_iff_edgeMapsEq (c t : Img) :
    (∀ x y : ℕ, x < (edge_map_find_edges c).w → y < (edge_map_find_edges c).h →
      (((edge_map_find_edges c).px x y : ℚ) - ((edge_map_find_edges t).px x y : ℚ)) = 0) ↔
    edgeMapsEqOnGrid c t := by
  have hcw : (edge_map_find_edges c).w = c.w := rfl
  have hch : (edge_map_find_edges c).h = c.h := rfl
  constructor
  · intro hz x y hx0 hx1 hy0 hy1
    have h1 := hz x.toNat y.toNat (by rw [hcw]; omega) (by rw [hch]; omega)
    rw [sub_eq_zero] at h1
    have h2 : (edge_map_find_edges c).px (x.toNat : ℤ) (y.toNat : ℤ) =
        (edge_map_find_edges t).px (x.toNat : ℤ) (y.toNat : ℤ) := by exact_mod_cast h1
    rwa [Int.toNat_of_nonneg hx0, Int.toNat_of_nonneg hy0] at h2
  · intro he x y hx hy
    rw [sub_eq_zero]
    have hx' : ((x : ℤ)) < (c.w : ℤ) := by rw [hcw] at hx; exact_mod_cast hx
    have hy' : ((y : ℤ)) < (c.h : ℤ) := by rw [hch] at hy; exact_mod_cast hy
    have := he (x : ℤ) (y : ℤ) (by omega) hx' (by omega) hy'
    exact_mod_cast this

/-- C5 (amended): for every pair of equally sized strips and every mode,
the seam score of `edge_weighted_edge_mse_score` is defined and equals
the negative weighted mean of squared edge-map differences with a
`1e-12`-regularized denominator; it is always at most 0, and it equals 0
exactly when the two strips' grayscale edge maps coincide on the grid —
in particular identical strips attain 0, but 0 is also attained by
distinct strips whose edge maps coincide. -/
theorem C5_seam_score_nonpos_zero_iff_edge_maps (c t : Img) (mode : Mode)
    (hw : c.w = t.w) (hh : c.h = t.h) :
    (∃ q, edge_weighted_edge_mse_score c t mode = .ok q) ∧
    ∀ q, edge_weighted_edge_mse_score c t mode = .ok q →
      q ≤ 0 ∧ (q = 0 ↔ edgeMapsEqOnGrid c t) ∧ (pixEqOnGrid c t → q = 0) := by
  have hne : ¬((c.w, c.h) ≠ (t.w, t.h)) := by simp [hw, hh]
  constructor
  · cases mode <;>
    · simp only [edge_weighted_edge_mse_score]
      rw [if_neg hne]
      exact ⟨_, rfl⟩
  · intro q hq
    cases mode with
    | x_ltr =>
      simp only [edge_weighted_edge_mse_score] at hq
      rw [if_neg hne] at hq
      injection hq with hq
      subst hq
      refine ⟨neg_div_reg_nonpos _ _
          (Finset.sum_nonneg fun y _ => Finset.sum_nonneg fun x hx =>
            mul_nonneg (edge_weight_vector_pos .x_ltr _ x (Finset.mem_range.mp hx)).le
              (mul_self_nonneg _))
          (Finset.sum_nonneg fun y _ => Finset.sum_nonneg fun x hx =>
            (edge_weight_vector_pos .x_ltr _ x (Finset.mem_range.mp hx)).le), ?_, ?_⟩
      · exact (neg_div_reg_eq_zero_iff _ _
            (Finset.sum_nonneg fun y _ => Finset.sum_nonneg fun x hx =>
              (edge_weight_vector_pos .x_ltr _ x (Finset.mem_range.mp hx)).le)).trans
          ((sum_wx_sq_eq_zero_iff _ _ _ _
            (fun x hx => edge_weight_vector_pos .x_ltr _ x hx)).trans
            (dzero_iff_edgeMapsEq c t))
      · intro hp
        exact ((neg_div_reg_eq_zero_iff _ _
            (Finset.sum_nonneg fun y _ => Finset.sum_nonneg fun x hx =>
              (edge_weight_vector_pos .x_ltr _ x (Finset.mem_range.mp hx)).le)).trans
          ((sum_wx_sq_eq_zero_iff _ _ _ _
            (fun x hx => edge_weight_vector_pos .x_ltr _ x hx)).trans
            (dzero_iff_edgeMapsEq c t))).mpr (pixEqOnGrid_edgeMapsEq c t hw hh hp)
    | x_rtl =>
      simp only [edge_weighted_edge_mse_score] at hq
      rw [if_neg hne] at hq
      injection hq with hq
      subst hq
      refine ⟨neg_div_reg_nonpos _ _
          (Finset.sum_nonneg fun y _ => Finset.sum_nonneg fun x hx =>
            mul_nonneg (edge_weight_vector_pos .x_rtl _ x (Finset.mem_range.mp hx)).le
              (mul_self_nonneg _))
          (Finset.sum_nonneg fun y _ => Finset.sum_nonneg fun x hx =>
            (edge_weight_vector_pos .x_rtl _ x (Finset.mem_range.mp hx)).le), ?_, ?_⟩
      · exact (neg_div_reg_eq_zero_iff _ _
            (Finset.sum_nonneg fun y _ => Finset.sum_nonneg fun x hx =>
              (edge_weight_vector_pos .x_rtl _ x (Finset.mem_range.mp hx)).le)).trans
          ((sum_wx_sq_eq_zero_iff _ _ _ _
            (fun x hx => edge_weight_vector_pos .x_rtl _ x hx)).trans
            (dzero_iff_edgeMapsEq c t))
      · intro hp
        exact ((neg_div_reg_eq_zero_iff _ _
            (Finset.sum_nonneg fun y _ => Finset.sum_nonneg fun x hx =>
              (edge_weight_vector_pos .x_rtl _ x (Finset.mem_range.mp hx)).le)).trans
          ((sum_wx_sq_eq_zero_iff _ _ _ _
            (fun x hx => edge_weight_vector_pos .x_rtl _ x hx)).trans
            (dzero_iff_edgeMapsEq c t))).mpr (pixEqOnGrid_edgeMapsEq c t hw hh hp)
    | y_ttb =>
      simp only [edge_weighted_edge_mse_score] at hq
      rw [if_neg hne] at hq
      injection hq with hq
      subst hq
      refine ⟨neg_div_reg_nonpos _ _
          (Finset.sum_nonneg fun y hy => Finset.sum_nonneg fun x _ =>
            mul_nonneg (edge_weight_vector_pos .y_ttb _ y (Finset.mem_range.mp hy)).le
              (mul_self_nonneg _))
          (Finset.sum_nonneg fun y hy =>
            (edge_weight_vector_pos .y_ttb _ y (Finset.mem_range.mp hy)).le), ?_, ?_⟩
      · exact (neg_div_reg_eq_zero_iff _ _
            (Finset.sum_nonneg fun y hy =>
              (edge_weight_vector_pos .y_ttb _ y (Finset.mem_range.mp hy)).le)).trans
          ((sum_wy_sq_eq_zero_iff _ _ _ _
            (fun y hy => edge_weight_vector_pos .y_ttb _ y hy)).trans
            (dzero_iff_edgeMapsEq c t))
      · intro hp
        exact ((neg_div_reg_eq_zero_iff _ _
            (Finset.sum_nonneg fun y hy =>
              (edge_weight_vector_pos .y_ttb _ y (Finset.mem_range.mp hy)).le)).trans
          ((sum_wy_sq_eq_zero_iff _ _ _ _
            (fun y hy => edge_weight_vector_pos .y_ttb _ y hy)).trans
            (dzero_iff_edgeMapsEq c t))).mpr (pixEqOnGrid_edgeMapsEq c t hw hh hp)
    | y_btt =>
      simp only [edge_weighted_edge_mse_score] at hq
      rw [if_neg hne] at hq
      injection hq with hq
      subst hq
      refine ⟨neg_div_reg_nonpos _ _
          (Finset.sum_nonneg fun y hy => Finset.sum_nonneg fun x _ =>
            mul_nonneg (edge_weight_vector_pos .y_btt _ y (Finset.mem_range.mp hy)).le
              (mul_self_nonneg _))
          (Finset.sum_nonneg fun y hy =>
            (edge_weight_vector_pos .y_btt _ y (Finset.mem_range.mp hy)).le), ?_, ?_⟩
      · exact (neg_div_reg_eq_zero_iff _ _
            (Finset.sum_nonneg fun y hy =>
              (edge_weight_vector_pos .y_btt _ y (Finset.mem_range.mp hy)).le)).trans
          ((sum_wy_sq_eq_zero_iff _ _ _ _
            (fun y hy => edge_weight_vector_pos .y_btt _ y hy)).trans
            (dzero_iff_edgeMapsEq c t))
      · intro hp
        exact ((neg_div_reg_eq_zero_iff _ _
            (Finset.sum_nonneg fun y hy =>
              (edge_weight_vector_pos .y_btt _ y (Finset.mem_range.mp hy)).le)).trans
          ((sum_wy_sq_eq_zero_iff _ _ _ _
            (fun y hy => edge_weight_vector_pos .y_btt _ y hy)).trans
            (dzero_iff_edgeMapsEq c t))).mpr (pixEqOnGrid_edgeMapsEq c t hw hh hp)

/-- A 1x1 strip holding the single RGB pixel (1, 0, 0). -/
def stripAlmostBlack : Img := Ras.mkFill 1 1 ((1, 0, 0) : Pix)

/-- A 1x1 strip holding the single RGB pixel (0, 0, 0). -/
def stripBlack : Img := Ras.mkFill 1 1 ((0, 0, 0) : Pix)

/-- Counterexample for C5: the claim says the upper bound 0 is attained
only when the two strips are identical, but the strips (1,0,0) and
(0,0,0) differ while both collapse to grayscale 0 under the truncating
luma transform, so their edge maps coincide and the score is exactly 0. -/
theorem C5_counterexample_distinct_strips_score_zero :
    edge_weighted_edge_mse_score stripAlmostBlack stripBlack Mode.x_ltr = .ok 0 ∧
    stripAlmostBlack.px 0 0 ≠ stripBlack.px 0 0 := by
  constructor
  · simp only [edge_weighted_edge_mse_score]
    rw [if_neg (by decide)]
    apply congrArg
    have h1 : (edge_map_find_edges stripAlmostBlack).px 0 0 = 0 := by decide
    have h2 : (edge_map_find_edges stripBlack).px 0 0 = 0 := by decide
    simp [show (edge_map_find_edges stripAlmostBlack).h = 1 from rfl,
      show (edge_map_find_edges stripAlmostBlack).w = 1 from rfl,
      Finset.sum_range_one, h1, h2]
  · decide

/-- Witness for C5 (amended): the score properties applied to a concrete
pair of equally sized strips. -/
theorem C5_seam_score_nonpos_zero_iff_edge_maps_witness :
    (stripAlmostBlack.w = stripBlack.w ∧ stripAlmostBlack.h = stripBlack.h) ∧
    ∃ q, edge_weighted_edge_mse_score stripAlmostBlack stripBlack Mode.x_ltr = .ok q := by
  refine ⟨⟨rfl, rfl⟩, ?_⟩
  exact (C5_seam_score_nonpos_zero_iff_edge_maps stripAlmostBlack stripBlack .x_ltr rfl rfl).1

/-- Python 3 `round` (banker's rounding: ties go to the even integer) of
the nonnegative fraction `a / b` (`b > 0`), computed exactly. -/
def pyRoundFrac (a b : ℕ) : ℕ :=
  let q := a / b
  let r := a % b
  if 2 * r < b then q
  else if b < 2 * r then q + 1
  else if q % 2 = 0 then q else q + 1

/-- One ramp alpha value: `int(round(255 * (x / max(1, feather_px - 1))))`
for the already-clamped feather width `f`, the rounding carried out
exactly on the rational `255 * x / max(1, f - 1)`. -/
def rampAlpha (f x : ℕ) : ℕ := pyRoundFrac (255 * x) (max 1 (f - 1))

/-- The `ramp_pixels` list built for x modes: for `x in range(f)` extend
by `[a] * ov_h` — a list of `f` blocks of `ov_h` copies each. -/
def rampPixelsX (f ovH : ℕ) : List ℕ :=
  (List.range f).flatMap fun x => List.replicate ovH (rampAlpha f x)

/-- The `ramp_pixels` list built for y modes: for `y in range(f)` extend
by `[a] * ov_w`. -/
def rampPixelsY (f ovW : ℕ) : List ℕ :=
  (List.range f).flatMap fun y => List.replicate ovW (rampAlpha f y)

/-- `Image.new("L", (w, h), 0)` followed by `putdata(data)`: pixel
`(x, y)` takes `data[y * w + x]` (row-major); pixels beyond the data
length keep the initial 0. -/
def putdataL (w h : ℕ) (data : List ℕ) : GImg :=
  ⟨w, h, fun x y =>
    if 0 ≤ x ∧ x < (w : ℤ) ∧ 0 ≤ y ∧ y < (h : ℤ) then data.getD (y * w + x).toNat 0 else 0⟩

/-- Pillow's `MULDIV255` rounding division by 255:
`t = v * a + 128; ((t >> 8) + t) >> 8`. -/
def muldiv255 (v a : ℕ) : ℕ := ((v * a + 128) >>> 8 + (v * a + 128)) >>> 8

/-- One channel of Pillow's alpha paste used by `Image.composite
(image1, image2, mask)`: `muldiv255(im2, 255 - a) + muldiv255(im1, a)`
(alpha 0 selects image2, alpha 255 selects image1). -/
def blendChan (a c1 c2 : ℕ) : ℕ := muldiv255 c2 (255 - a) + muldiv255 c1 a

/-- `Image.composite(image1, image2, mask)` on same-sized RGB images with
an "L" mask. -/
def compositeImg (im1 im2 : Img) (mask : GImg) : Img :=
  ⟨im2.w, im2.h, fun x y =>
    let a := mask.px x y
    let p1 := im1.px x y
    let p2 := im2.px x y
    (blendChan a p1.1 p2.1, blendChan a p1.2.1 p2.2.1, blendChan a p1.2.2 p2.2.2)⟩

/-- `session._overlap_crops_for_blend`: the canvas-side and tile-side
crops of the overlap region that `glue` overwrites. -/
def overlap_crops_for_blend (canvas tile : Img) (mode : Mode) : Img × Img :=
  let cw := canvas.w
  let ch := canvas.h
  match mode with
  | .x_ltr =>
    (canvas.crop ((cw : ℤ) - OVERLAP_PX) 0 (cw : ℤ) (TILE_PX : ℤ),
     tile.crop ((HALF_PX : ℤ) - OVERLAP_PX) 0 (HALF_PX : ℤ) (TILE_PX : ℤ))
  | .x_rtl =>
    (canvas.crop 0 0 (OVERLAP_PX : ℤ) (TILE_PX : ℤ),
     tile.crop (HALF_PX : ℤ) 0 ((HALF_PX : ℤ) + OVERLAP_PX) (TILE_PX : ℤ))
  | .y_ttb =>
    (canvas.crop 0 ((ch : ℤ) - OVERLAP_PX) (TILE_PX : ℤ) (ch : ℤ),
     tile.crop 0 ((HALF_PX : ℤ) - OVERLAP_PX) (TILE_PX : ℤ) (HALF_PX : ℤ))
  | .y_btt =>
    (canvas.crop 0 0 (TILE_PX : ℤ) (OVERLAP_PX : ℤ),
     tile.crop 0 (HALF_PX : ℤ) (TILE_PX : ℤ) ((HALF_PX : ℤ) + OVERLAP_PX))

/-- The blended overlap window of `session._glue_with_feather` for the
already-clamped feather width `f`: the alpha mask is 0 everywhere except
a `putdata`-filled ramp pasted at the frontier end of the window, and
`Image.composite(tile_ov, canvas_ov, mask)` blends the two crops. -/
def feather_blended (canvas tile : Img) (mode : Mode) (f : ℕ) : Img :=
  let co := overlap_crops_for_blend canvas tile mode
  let canvas_ov := co.1
  let tile_ov := co.2
  let ovW := canvas_ov.w
  let ovH := canvas_ov.h
  let mask : GImg :=
    match mode with
    | .x_ltr => (Ras.mkFill ovW ovH 0).paste (putdataL f ovH (rampPixelsX f ovH)) ((ovW : ℤ) - (f : ℤ)) 0
    | .x_rtl => (Ras.mkFill ovW ovH 0).paste (putdataL f ovH (rampPixelsX f ovH)) 0 0
    | .y_ttb => (Ras.mkFill ovW ovH 0).paste (putdataL ovW f (rampPixelsY f ovW)) 0 ((ovH : ℤ) - (f : ℤ))
    | .y_btt => (Ras.mkFill ovW ovH 0).paste (putdataL ovW f (rampPixelsY f ovW)) 0 0
  compositeImg tile_ov canvas_ov mask

/-- The tile with the blended overlap window written back
(`tile2 = tile.copy(); tile2.paste(blended_ov, ...)`). -/
def feather_tile2 (canvas tile : Img) (mode : Mode) (f : ℕ) : Img :=
  match mode with
  | .x_ltr => tile.paste (feather_blended canvas tile mode f) ((HALF_PX : ℤ) - OVERLAP_PX) 0
  | .x_rtl => tile.paste (feather_blended canvas tile mode f) (HALF_PX : ℤ) 0
  | .y_ttb => tile.paste (feather_blended canvas tile mode f) 0 ((HALF_PX : ℤ) - OVERLAP_PX)
  | .y_btt => tile.paste (feather_blended canvas tile mode f) 0 (HALF_PX : ℤ)

/-- `session._glue_with_feather`: delegate to `glue` for
`feather_px <= 0`; otherwise clamp the feather to `[1, OVERLAP_PX]`,
blend only inside the overlap window, write the window back into the
tile, and glue the modified tile. -/
def glue_with_feather (canvas tile : Img) (mode : Mode) (feather_px : ℤ) : Except String Img :=
  if feather_px ≤ 0 then glue canvas tile mode
  else
    let f : ℕ := (max 1 (min feather_px (OVERLAP_PX : ℤ))).toNat
    glue canvas (feather_tile2 canvas tile mode f) mode

/-- The pixel of a fallible glue result, when it succeeded. -/
def resPx (r : Except String Img) (x y : ℤ) : Option Pix :=
  match r with
  | .ok im => some (im.px x y)
  | .error _ => none

theorem muldiv255_zero (v : ℕ) : muldiv255 v 0 = 0 := by
  simp [muldiv255]

set_option maxRecDepth 4096 in
theorem muldiv255_full (v : ℕ) (hv : v ≤ 255) : muldiv255 v 255 = v := by
  revert hv
  revert v
  decide

theorem blendChan_zero (c1 c2 : ℕ) (h2 : c2 ≤ 255) : blendChan 0 c1 c2 = c2 := by
  simp [blendChan, muldiv255_zero, muldiv255_full c2 h2]

theorem feather_blended_w_x (canvas tile : Img) (mode : Mode) (f : ℕ)
    (hm : mode = .x_ltr ∨ mode = .x_rtl) :
    (feather_blended canvas tile mode f).w = OVERLAP_PX := by
  rcases hm with rfl | rfl <;>
  · simp only [feather_blended, compositeImg, overlap_crops_for_blend, Ras.crop_w,
      OVERLAP_PX, HALF_PX]
    omega

theorem feather_blended_h_x (canvas tile : Img) (mode : Mode) (f : ℕ)
    (hm : mode = .x_ltr ∨ mode = .x_rtl) :
    (feather_blended canvas tile mode f).h = TILE_PX := by
  rcases hm with rfl | rfl <;>
  · simp only [feather_blended, compositeImg, overlap_crops_for_blend, Ras.crop_h,
      OVERLAP_PX, HALF_PX, TILE_PX]
    omega

theorem feather_blended_w_y (canvas tile : Img) (mode : Mode) (f : ℕ)
    (hm : mode = .y_ttb ∨ mode = .y_btt) :
    (feather_blended canvas tile mode f).w = TILE_PX := by
  rcases hm with rfl | rfl <;>
  · simp only [feather_blended, compositeImg, overlap_crops_for_blend, Ras.crop_w,
      OVERLAP_PX, HALF_PX, TILE_PX]
    omega

theorem feather_blended_h_y (canvas tile : Img) (mode : Mode) (f : ℕ)
    (hm : mode = .y_ttb ∨ mode = .y_btt) :
    (feather_blended canvas tile mode f).h = OVERLAP_PX := by
  rcases hm with rfl | rfl <;>
  · simp only [feather_blended, compositeImg, overlap_crops_for_blend, Ras.crop_h,
      OVERLAP_PX, HALF_PX]
    omega

theorem feather_tile2_w (canvas tile : Img) (mode : Mode) (f : ℕ) :
    (feather_tile2 canvas tile mode f).w = tile.w := by
  cases mode <;> rfl

theorem feather_tile2_h (canvas tile : Img) (mode : Mode) (f : ℕ) :
    (feather_tile2 canvas tile mode f).h = tile.h := by
  cases mode <;> rfl

/-- Outside the overlap window of the tile, `feather_tile2` agrees with
the unmodified tile (the growth-axis coordinate alone decides it). -/
theorem feather_tile2_px_outside (canvas tile : Img) (mode : Mode) (f : ℕ) (u v : ℤ)
    (hu : match mode with
      | .x_ltr => ¬((HALF_PX : ℤ) - OVERLAP_PX ≤ u ∧ u < (HALF_PX : ℤ))
      | .x_rtl => ¬((HALF_PX : ℤ) ≤ u ∧ u < (HALF_PX : ℤ) + OVERLAP_PX)
      | .y_ttb => ¬((HALF_PX : ℤ) - OVERLAP_PX ≤ v ∧ v < (HALF_PX : ℤ))
      | .y_btt => ¬((HALF_PX : ℤ) ≤ v ∧ v < (HALF_PX : ℤ) + OVERLAP_PX)) :
    (feather_tile2 canvas tile mode f).px u v = tile.px u v := by
  cases mode with
  | x_ltr =>
    have hbw := feather_blended_w_x canvas tile .x_ltr f (Or.inl rfl)
    refine Ras.paste_px_out _ _ _ _ _ _ ?_
    simp only [hbw, OVERLAP_PX, HALF_PX] at *
    omega
  | x_rtl =>
    have hbw := feather_blended_w_x canvas tile .x_rtl f (Or.inr rfl)
    refine Ras.paste_px_out _ _ _ _ _ _ ?_
    simp only [hbw, OVERLAP_PX, HALF_PX] at *
    omega
  | y_ttb =>
    have hbh := feather_blended_h_y canvas tile .y_ttb f (Or.inl rfl)
    refine Ras.paste_px_out _ _ _ _ _ _ ?_
    simp only [hbh, OVERLAP_PX, HALF_PX] at *
    omega
  | y_btt =>
    have hbh := feather_blended_h_y canvas tile .y_btt f (Or.inr rfl)
    refine Ras.paste_px_out _ _ _ _ _ _ ?_
    simp only [hbh, OVERLAP_PX, HALF_PX] at *
    omega

/-- The set of output-canvas pixels that feathering can affect: the
glue-image of the tile's overlap window.  For forward modes this is the
canvas-frontier overlap strip; for reverse modes the window lands
`OVERLAP_PX` inside the new leading region, at `[OVERLAP_PX,
2 * OVERLAP_PX)`. -/
def feather_affected_region (mode : Mode) (w h : ℕ) (x y : ℤ) : Prop :=
  match mode with
  | .x_ltr => (w : ℤ) - OVERLAP_PX ≤ x ∧ x < (w : ℤ)
  | .x_rtl => (OVERLAP_PX : ℤ) ≤ x ∧ x < (OVERLAP_PX : ℤ) + OVERLAP_PX
  | .y_ttb => (h : ℤ) - OVERLAP_PX ≤ y ∧ y < (h : ℤ)
  | .y_btt => (OVERLAP_PX : ℤ) ≤ y ∧ y < (OVERLAP_PX : ℤ) + OVERLAP_PX

/-- C7 (amended): `glue_with_feather` with `featherPx <= 0` returns
exactly `glue`; with `featherPx >= 1` its result only depends on the
clamp of `featherPx` to `[1, OVERLAP_PX]`; and the composite touches
only the overlap window of the tile, so every output pixel outside the
glue-image of that window — in particular the must-preserve keep
region — is identical to what the unfeathered `glue` produces.  (The
originally claimed ramp orientation, alpha 255 at the seam, fails: see
the counterexample.) -/
theorem C7_glue_with_feather_contract (canvas tile : Img) (mode : Mode) (f : ℤ)
    (hc : match mode with
      | .x_ltr | .x_rtl => canvas.h = TILE_PX
      | .y_ttb | .y_btt => canvas.w = TILE_PX)
    (htw : tile.w = TILE_PX) (hth : tile.h = TILE_PX) :
    (f ≤ 0 → glue_with_feather canvas tile mode f = glue canvas tile mode) ∧
    (1 ≤ f → glue_with_feather canvas tile mode f =
      glue_with_feather canvas tile mode (max 1 (min f (OVERLAP_PX : ℤ)))) ∧
    (∀ x y : ℤ, ¬ feather_affected_region mode canvas.w canvas.h x y →
      resPx (glue_with_feather canvas tile mode f) x y = resPx (glue canvas tile mode) x y) := by
  refine ⟨?_, ?_, ?_⟩
  · intro hf
    simp only [glue_with_feather]
    rw [if_pos hf]
  · intro hf1
    have h256 : (OVERLAP_PX : ℤ) = 256 := by norm_num [OVERLAP_PX]
    have h1 : ¬ (f ≤ 0) := by omega
    have h2 : ¬ (max 1 (min f (OVERLAP_PX : ℤ)) ≤ 0) := by rw [h256]; omega
    simp only [glue_with_feather]
    rw [if_neg h1, if_neg h2]
    have harg : max 1 (min (max 1 (min f (OVERLAP_PX : ℤ))) (OVERLAP_PX : ℤ)) =
        max 1 (min f (OVERLAP_PX : ℤ)) := by rw [h256]; omega
    rw [harg]
  · intro x y hout
    by_cases hf : f ≤ 0
    · rw [show glue_with_feather canvas tile mode f = glue canvas tile mode from by
        simp only [glue_with_feather]; rw [if_pos hf]]
    · simp only [glue_with_feather]
      rw [if_neg hf]
      cases mode with
      | x_ltr =>
        have hc' : canvas.h = TILE_PX := hc
        simp only [feather_affected_region] at hout
        generalize hT : feather_tile2 canvas tile .x_ltr ((max 1 (min f (OVERLAP_PX : ℤ))).toNat) = T
        have hTw : T.w = TILE_PX := by rw [← hT, feather_tile2_w, htw]
        have hTh : T.h = TILE_PX := by rw [← hT, feather_tile2_h, hth]
        have hTout : ∀ u v : ℤ, ¬((HALF_PX : ℤ) - OVERLAP_PX ≤ u ∧ u < (HALF_PX : ℤ)) →
            T.px u v = tile.px u v := by
          intro u v hu
          rw [← hT]
          exact feather_tile2_px_outside _ _ _ _ _ _ hu
        have hgl1 : glue canvas T .x_ltr = .ok
            (((Ras.mkFill (canvas.w + ADVANCE_PX) canvas.h ((0, 0, 0) : Pix)).paste canvas 0 0).paste
              (T.crop ((HALF_PX : ℤ) - (OVERLAP_PX : ℤ)) 0 ((HALF_PX : ℤ) + (ADVANCE_PX : ℤ)) (TILE_PX : ℤ))
              ((canvas.w : ℤ) - (OVERLAP_PX : ℤ)) 0) := by
          simp only [glue, tile_patch_for_overlap_glue]
          rw [if_neg (by simp [hc']), if_neg (by simp [hTw, hTh])]
        have hgl2 : glue canvas tile .x_ltr = .ok
            (((Ras.mkFill (canvas.w + ADVANCE_PX) canvas.h ((0, 0, 0) : Pix)).paste canvas 0 0).paste
              (tile.crop ((HALF_PX : ℤ) - (OVERLAP_PX : ℤ)) 0 ((HALF_PX : ℤ) + (ADVANCE_PX : ℤ)) (TILE_PX : ℤ))
              ((canvas.w : ℤ) - (OVERLAP_PX : ℤ)) 0) := by
          simp only [glue, tile_patch_for_overlap_glue]
          rw [if_neg (by simp [hc']), if_neg (by simp [htw, hth])]
        rw [hgl1, hgl2]
        simp only [resPx]
        refine congrArg some ?_
        by_cases hin : ((canvas.w : ℤ) - (OVERLAP_PX : ℤ) ≤ x ∧ x < (canvas.w : ℤ) + (ADVANCE_PX : ℤ) ∧
            0 ≤ x ∧ 0 ≤ y ∧ y < (canvas.h : ℤ))
        · rw [Ras.paste_px_in _ _ _ _ _ _ (by
              simp only [Ras.paste_w, Ras.paste_h, Ras.mkFill_w, Ras.mkFill_h, Ras.crop_w, Ras.crop_h,
                TILE_PX, HALF_PX, OVERLAP_PX, ADVANCE_PX] at *; omega),
            Ras.paste_px_in _ _ _ _ _ _ (by
              simp only [Ras.paste_w, Ras.paste_h, Ras.mkFill_w, Ras.mkFill_h, Ras.crop_w, Ras.crop_h,
                TILE_PX, HALF_PX, OVERLAP_PX, ADVANCE_PX] at *; omega),
            Ras.crop_px_in _ _ _ _ _ _ _ (by
              simp only [hTw, hTh, TILE_PX, HALF_PX, OVERLAP_PX, ADVANCE_PX] at *; omega),
            Ras.crop_px_in _ _ _ _ _ _ _ (by
              simp only [htw, hth, TILE_PX, HALF_PX, OVERLAP_PX, ADVANCE_PX] at *; omega)]
          apply hTout
          simp only [TILE_PX, HALF_PX, OVERLAP_PX, ADVANCE_PX] at *
          omega
        · rw [Ras.paste_px_out _ (T.crop ((HALF_PX : ℤ) - (OVERLAP_PX : ℤ)) 0 ((HALF_PX : ℤ) + (ADVANCE_PX : ℤ)) (TILE_PX : ℤ)) _ _ _ _ (by
              simp only [Ras.paste_w, Ras.paste_h, Ras.mkFill_w, Ras.mkFill_h, Ras.crop_w, Ras.crop_h,
                TILE_PX, HALF_PX, OVERLAP_PX, ADVANCE_PX] at *; omega),
            Ras.paste_px_out _ (tile.crop ((HALF_PX : ℤ) - (OVERLAP_PX : ℤ)) 0 ((HALF_PX : ℤ) + (ADVANCE_PX : ℤ)) (TILE_PX : ℤ)) _ _ _ _ (by
              simp only [Ras.paste_w, Ras.paste_h, Ras.mkFill_w, Ras.mkFill_h, Ras.crop_w, Ras.crop_h,
                TILE_PX, HALF_PX, OVERLAP_PX, ADVANCE_PX] at *; omega)]
      | x_rtl =>
        have hc' : canvas.h = TILE_PX := hc
        simp only [feather_affected_region] at hout
        generalize hT : feather_tile2 canvas tile .x_rtl ((max 1 (min f (OVERLAP_PX : ℤ))).toNat) = T
        have hTw : T.w = TILE_PX := by rw [← hT, feather_tile2_w, htw]
        have hTh : T.h = TILE_PX := by rw [← hT, feather_tile2_h, hth]
        have hTout : ∀ u v : ℤ, ¬((HALF_PX : ℤ) ≤ u ∧ u < (HALF_PX : ℤ) + OVERLAP_PX) →
            T.px u v = tile.px u v := by
          intro u v hu
          rw [← hT]
          exact feather_tile2_px_outside _ _ _ _ _ _ hu
        have hgl1 : glue canvas T .x_rtl = .ok
            (((Ras.mkFill (canvas.w + ADVANCE_PX) canvas.h ((0, 0, 0) : Pix)).paste canvas (ADVANCE_PX : ℤ) 0).paste
              (T.crop ((HALF_PX : ℤ) - (OVERLAP_PX : ℤ)) 0 ((HALF_PX : ℤ) + (ADVANCE_PX : ℤ)) (TILE_PX : ℤ))
              0 0) := by
          simp only [glue, tile_patch_for_overlap_glue]
          rw [if_neg (by simp [hc']), if_neg (by simp [hTw, hTh])]
        have hgl2 : glue canvas tile .x_rtl = .ok
            (((Ras.mkFill (canvas.w + ADVANCE_PX) canvas.h ((0, 0, 0) : Pix)).paste canvas (ADVANCE_PX : ℤ) 0).paste
              (tile.crop ((HALF_PX : ℤ) - (OVERLAP_PX : ℤ)) 0 ((HALF_PX : ℤ) + (ADVANCE_PX : ℤ)) (TILE_PX : ℤ))
              0 0) := by
          simp only [glue, tile_patch_for_overlap_glue]
          rw [if_neg (by simp [hc']), if_neg (by simp [htw, hth])]
        rw [hgl1, hgl2]
        simp only [resPx]
        refine congrArg some ?_
        by_cases hin : (0 ≤ x ∧ x < (canvas.w : ℤ) + (ADVANCE_PX : ℤ) ∧ x < (PATCH_PX : ℤ) ∧
            0 ≤ y ∧ y < (canvas.h : ℤ))
        · rw [Ras.paste_px_in _ _ _ _ _ _ (by
              simp only [Ras.paste_w, Ras.paste_h, Ras.mkFill_w, Ras.mkFill_h, Ras.crop_w, Ras.crop_h,
                TILE_PX, HALF_PX, OVERLAP_PX, ADVANCE_PX, PATCH_PX] at *; omega),
            Ras.paste_px_in _ _ _ _ _ _ (by
              simp only [Ras.paste_w, Ras.paste_h, Ras.mkFill_w, Ras.mkFill_h, Ras.crop_w, Ras.crop_h,
                TILE_PX, HALF_PX, OVERLAP_PX, ADVANCE_PX, PATCH_PX] at *; omega),
            Ras.crop_px_in _ _ _ _ _ _ _ (by
              simp only [hTw, hTh, TILE_PX, HALF_PX, OVERLAP_PX, ADVANCE_PX, PATCH_PX] at *; omega),
            Ras.crop_px_in _ _ _ _ _ _ _ (by
              simp only [htw, hth, TILE_PX, HALF_PX, OVERLAP_PX, ADVANCE_PX, PATCH_PX] at *; omega)]
          apply hTout
          simp only [TILE_PX, HALF_PX, OVERLAP_PX, ADVANCE_PX, PATCH_PX] at *
          omega
        · rw [Ras.paste_px_out _ (T.crop ((HALF_PX : ℤ) - (OVERLAP_PX : ℤ)) 0 ((HALF_PX : ℤ) + (ADVANCE_PX : ℤ)) (TILE_PX : ℤ)) _ _ _ _ (by
              simp only [Ras.paste_w, Ras.paste_h, Ras.mkFill_w, Ras.mkFill_h, Ras.crop_w, Ras.crop_h,
                TILE_PX, HALF_PX, OVERLAP_PX, ADVANCE_PX, PATCH_PX] at *; omega),
            Ras.paste_px_out _ (tile.crop ((HALF_PX : ℤ) - (OVERLAP_PX : ℤ)) 0 ((HALF_PX : ℤ) + (ADVANCE_PX : ℤ)) (TILE_PX : ℤ)) _ _ _ _ (by
              simp only [Ras.paste_w, Ras.paste_h, Ras.mkFill_w, Ras.mkFill_h, Ras.crop_w, Ras.crop_h,
                TILE_PX, HALF_PX, OVERLAP_PX, ADVANCE_PX, PATCH_PX] at *; omega)]
      | y_ttb =>
        have hc' : canvas.w = TILE_PX := hc
        simp only [feather_affected_region] at hout
        generalize hT : feather_tile2 canvas tile .y_ttb ((max 1 (min f (OVERLAP_PX : ℤ))).toNat) = T
        have hTw : T.w = TILE_PX := by rw [← hT, feather_tile2_w, htw]
        have hTh : T.h = TILE_PX := by rw [← hT, feather_tile2_h, hth]
        have hTout : ∀ u v : ℤ, ¬((HALF_PX : ℤ) - OVERLAP_PX ≤ v ∧ v < (HALF_PX : ℤ)) →
            T.px u v = tile.px u v := by
          intro u v hu
          rw [← hT]
          exact feather_tile2_px_outside _ _ _ _ _ _ hu
        have hgl1 : glue canvas T .y_ttb = .ok
            (((Ras.mkFill canvas.w (canvas.h + ADVANCE_PX) ((0, 0, 0) : Pix)).paste canvas 0 0).paste
              (T.crop 0 ((HALF_PX : ℤ) - (OVERLAP_PX : ℤ)) (TILE_PX : ℤ) ((HALF_PX : ℤ) + (ADVANCE_PX : ℤ)))
              0 ((canvas.h : ℤ) - (OVERLAP_PX : ℤ))) := by
          simp only [glue, tile_patch_for_overlap_glue]
          rw [if_neg (by simp [hc']), if_neg (by simp [hTw, hTh])]
        have hgl2 : glue canvas tile .y_ttb = .ok
            (((Ras.mkFill canvas.w (canvas.h + ADVANCE_PX) ((0, 0, 0) : Pix)).paste canvas 0 0).paste
              (tile.crop 0 ((HALF_PX : ℤ) - (OVERLAP_PX : ℤ)) (TILE_PX : ℤ) ((HALF_PX : ℤ) + (ADVANCE_PX : ℤ)))
              0 ((canvas.h : ℤ) - (OVERLAP_PX : ℤ))) := by
          simp only [glue, tile_patch_for_overlap_glue]
          rw [if_neg (by simp [hc']), if_neg (by simp [htw, hth])]
        rw [hgl1, hgl2]
        simp only [resPx]
        refine congrArg some ?_
        by_cases hin : ((canvas.h : ℤ) - (OVERLAP_PX : ℤ) ≤ y ∧ y < (canvas.h : ℤ) + (ADVANCE_PX : ℤ) ∧
            0 ≤ y ∧ 0 ≤ x ∧ x < (canvas.w : ℤ))
        · rw [Ras.paste_px_in _ _ _ _ _ _ (by
              simp only [Ras.paste_w, Ras.paste_h, Ras.mkFill_w, Ras.mkFill_h, Ras.crop_w, Ras.crop_h,
                TILE_PX, HALF_PX, OVERLAP_PX, ADVANCE_PX] at *; omega),
            Ras.paste_px_in _ _ _ _ _ _ (by
              simp only [Ras.paste_w, Ras.paste_h, Ras.mkFill_w, Ras.mkFill_h, Ras.crop_w, Ras.crop_h,
                TILE_PX, HALF_PX, OVERLAP_PX, ADVANCE_PX] at *; omega),
            Ras.crop_px_in _ _ _ _ _ _ _ (by
              simp only [hTw, hTh, TILE_PX, HALF_PX, OVERLAP_PX, ADVANCE_PX] at *; omega),
            Ras.crop_px_in _ _ _ _ _ _ _ (by
              simp only [htw, hth, TILE_PX, HALF_PX, OVERLAP_PX, ADVANCE_PX] at *; omega)]
          apply hTout
          simp only [TILE_PX, HALF_PX, OVERLAP_PX, ADVANCE_PX] at *
          omega
        · rw [Ras.paste_px_out _ (T.crop 0 ((HALF_PX : ℤ) - (OVERLAP_PX : ℤ)) (TILE_PX : ℤ) ((HALF_PX : ℤ) + (ADVANCE_PX : ℤ))) _ _ _ _ (by
              simp only [Ras.paste_w, Ras.paste_h, Ras.mkFill_w, Ras.mkFill_h, Ras.crop_w, Ras.crop_h,
                TILE_PX, HALF_PX, OVERLAP_PX, ADVANCE_PX] at *; omega),
            Ras.paste_px_out _ (tile.crop 0 ((HALF_PX : ℤ) - (OVERLAP_PX : ℤ)) (TILE_PX : ℤ) ((HALF_PX : ℤ) + (ADVANCE_PX : ℤ))) _ _ _ _ (by
              simp only [Ras.paste_w, Ras.paste_h, Ras.mkFill_w, Ras.mkFill_h, Ras.crop_w, Ras.crop_h,
                TILE_PX, HALF_PX, OVERLAP_PX, ADVANCE_PX] at *; omega)]
      | y_btt =>
        have hc' : canvas.w = TILE_PX := hc
        simp only [feather_affected_region] at hout
        generalize hT : feather_tile2 canvas tile .y_btt ((max 1 (min f (OVERLAP_PX : ℤ))).toNat) = T
        have hTw : T.w = TILE_PX := by rw [← hT, feather_tile2_w, htw]
        have hTh : T.h = TILE_PX := by rw [← hT, feather_tile2_h, hth]
        have hTout : ∀ u v : ℤ, ¬((HALF_PX : ℤ) ≤ v ∧ v < (HALF_PX : ℤ) + OVERLAP_PX) →
            T.px u v = tile.px u v := by
          intro u v hu
          rw [← hT]
          exact feather_tile2_px_outside _ _ _ _ _ _ hu
        have hgl1 : glue canvas T .y_btt = .ok
            (((Ras.mkFill canvas.w (canvas.h + ADVANCE_PX) ((0, 0, 0) : Pix)).paste canvas 0 (ADVANCE_PX : ℤ)).paste
              (T.crop 0 ((HALF_PX : ℤ) - (OVERLAP_PX : ℤ)) (TILE_PX : ℤ) ((HALF_PX : ℤ) + (ADVANCE_PX : ℤ)))
              0 0) := by
          simp only [glue, tile_patch_for_overlap_glue]
          rw [if_neg (by simp [hc']), if_neg (by simp [hTw, hTh])]
        have hgl2 : glue canvas tile .y_btt = .ok
            (((Ras.mkFill canvas.w (canvas.h + ADVANCE_PX) ((0, 0, 0) : Pix)).paste canvas 0 (ADVANCE_PX : ℤ)).paste
              (tile.crop 0 ((HALF_PX : ℤ) - (OVERLAP_PX : ℤ)) (TILE_PX : ℤ) ((HALF_PX : ℤ) + (ADVANCE_PX : ℤ)))
              0 0) := by
          simp only [glue, tile_patch_for_overlap_glue]
          rw [if_neg (by simp [hc']), if_neg (by simp [htw, hth])]
        rw [hgl1, hgl2]
        simp only [resPx]
        refine congrArg some ?_
        by_cases hin : (0 ≤ y ∧ y < (canvas.h : ℤ) + (ADVANCE_PX : ℤ) ∧ y < (PATCH_PX : ℤ) ∧
            0 ≤ x ∧ x < (canvas.w : ℤ))
        · rw [Ras.paste_px_in _ _ _ _ _ _ (by
              simp only [Ras.paste_w, Ras.paste_h, Ras.mkFill_w, Ras.mkFill_h, Ras.crop_w, Ras.crop_h,
                TILE_PX, HALF_PX, OVERLAP_PX, ADVANCE_PX, PATCH_PX] at *; omega),
            Ras.paste_px_in _ _ _ _ _ _ (by
              simp only [Ras.paste_w, Ras.paste_h, Ras.mkFill_w, Ras.mkFill_h, Ras.crop_w, Ras.crop_h,
                TILE_PX, HALF_PX, OVERLAP_PX, ADVANCE_PX, PATCH_PX] at *; omega),
            Ras.crop_px_in _ _ _ _ _ _ _ (by
              simp only [hTw, hTh, TILE_PX, HALF_PX, OVERLAP_PX, ADVANCE_PX, PATCH_PX] at *; omega),
            Ras.crop_px_in _ _ _ _ _ _ _ (by
              simp only [htw, hth, TILE_PX, HALF_PX, OVERLAP_PX, ADVANCE_PX, PATCH_PX] at *; omega)]
          apply hTout
          simp only [TILE_PX, HALF_PX, OVERLAP_PX, ADVANCE_PX, PATCH_PX] at *
          omega
        · rw [Ras.paste_px_out _ (T.crop 0 ((HALF_PX : ℤ) - (OVERLAP_PX : ℤ)) (TILE_PX : ℤ) ((HALF_PX : ℤ) + (ADVANCE_PX : ℤ))) _ _ _ _ (by
              simp only [Ras.paste_w, Ras.paste_h, Ras.mkFill_w, Ras.mkFill_h, Ras.crop_w, Ras.crop_h,
                TILE_PX, HALF_PX, OVERLAP_PX, ADVANCE_PX, PATCH_PX] at *; omega),
            Ras.paste_px_out _ (tile.crop 0 ((HALF_PX : ℤ) - (OVERLAP_PX : ℤ)) (TILE_PX : ℤ) ((HALF_PX : ℤ) + (ADVANCE_PX : ℤ))) _ _ _ _ (by
              simp only [Ras.paste_w, Ras.paste_h, Ras.mkFill_w, Ras.mkFill_h, Ras.crop_w, Ras.crop_h,
                TILE_PX, HALF_PX, OVERLAP_PX, ADVANCE_PX, PATCH_PX] at *; omega)]

/-- A concrete all-black 1024x1024 canvas. -/
def canvasBlack : Img := Ras.mkFill 1024 1024 ((0, 0, 0) : Pix)

/-- A concrete all-white 1024x1024 tile. -/
def tileWhite : Img := Ras.mkFill 1024 1024 ((255, 255, 255) : Pix)

/-- Counterexample for C7: the claim asserts the composite alpha is 255
at the seam, which would make the feathered pixel adjacent to the seam
take the tile side.  With `featherPx = 2` in mode `x_ltr` on a black
canvas and a white tile, the output pixel at the seam-adjacent overlap
position `(1023, 0)` is the canvas pixel `(0, 0, 0)` (the row-major
`putdata` fill transposes the intended horizontal ramp, leaving alpha 0
there), while plain `glue` puts the tile pixel `(255, 255, 255)` there. -/
theorem C7_counterexample_seam_alpha_not_255 :
    resPx (glue_with_feather canvasBlack tileWhite Mode.x_ltr 2) 1023 0 = some ((0, 0, 0) : Pix) ∧
    resPx (glue canvasBlack tileWhite Mode.x_ltr) 1023 0 = some ((255, 255, 255) : Pix) := by
  constructor
  · decide
  · decide

/-- Witness for C7 (amended): delegation, clamp-invariance and
outside-window identity at concrete inputs. -/
theorem C7_glue_with_feather_contract_witness :
    (canvasGray.h = TILE_PX ∧ tileDark.w = TILE_PX ∧ tileDark.h = TILE_PX ∧
      (-1 : ℤ) ≤ 0 ∧ (1 : ℤ) ≤ 3 ∧
      ¬ feather_affected_region Mode.x_ltr canvasGray.w canvasGray.h 0 0) ∧
    glue_with_feather canvasGray tileDark Mode.x_ltr (-1) = glue canvasGray tileDark Mode.x_ltr ∧
    glue_with_feather canvasGray tileDark Mode.x_ltr 3 =
      glue_with_feather canvasGray tileDark Mode.x_ltr (max 1 (min 3 (OVERLAP_PX : ℤ))) ∧
    resPx (glue_with_feather canvasGray tileDark Mode.x_ltr 3) 0 0 =
      resPx (glue canvasGray tileDark Mode.x_ltr) 0 0 := by
  have hreg : ¬ feather_affected_region Mode.x_ltr canvasGray.w canvasGray.h 0 0 := by
    simp only [feather_affected_region, canvasGray, Ras.mkFill_w, OVERLAP_PX]
    omega
  obtain ⟨hdel, -, -⟩ := C7_glue_with_feather_contract canvasGray tileDark .x_ltr (-1) rfl rfl rfl
  obtain ⟨-, hclamp, hconf⟩ := C7_glue_with_feather_contract canvasGray tileDark .x_ltr 3 rfl rfl rfl
  exact ⟨⟨rfl, rfl, rfl, by norm_num, by norm_num, hreg⟩,
    hdel (by norm_num), hclamp (by norm_num), hconf 0 0 hreg⟩

/-- All channels of a pixel are 8-bit (at most 255). -/
def pixLe255 (p : Pix) : Prop := p.1 ≤ 255 ∧ p.2.1 ≤ 255 ∧ p.2.2 ≤ 255

/-- All pixels of an image are 8-bit. -/
def imgPix255 (im : Img) : Prop := ∀ x y : ℤ, pixLe255 (im.px x y)

/-- C10 (amended): for the forward modes (`x_ltr`, `y_ttb`) and every
`featherPx` with `1 <= featherPx <= 255`, the glued canvas's overlap
strip outside the `featherPx`-wide ramp nearest the seam consists of the
old canvas pixels (the mask is 0 there, selecting the canvas side of the
blend), not the winning tile's pixels.  For the reverse modes this
fails: the blended window is pasted `OVERLAP_PX` away from the output's
overlap strip, which instead receives the tile's far conditioning
pixels (see the counterexample). -/
theorem C10_feather_overlap_outside_ramp (canvas tile : Img) (f : ℤ)
    (hf1 : 1 ≤ f) (hf2 : f ≤ 255)
    (htw : tile.w = TILE_PX) (hth : tile.h = TILE_PX) (hpix : imgPix255 canvas) :
    (canvas.h = TILE_PX → OVERLAP_PX ≤ canvas.w → ∀ x y : ℤ,
      (canvas.w : ℤ) - (OVERLAP_PX : ℤ) ≤ x → x < (canvas.w : ℤ) - f → 0 ≤ y → y < (TILE_PX : ℤ) →
      resPx (glue_with_feather canvas tile .x_ltr f) x y = some (canvas.px x y)) ∧
    (canvas.w = TILE_PX → OVERLAP_PX ≤ canvas.h → ∀ x y : ℤ,
      0 ≤ x → x < (TILE_PX : ℤ) → (canvas.h : ℤ) - (OVERLAP_PX : ℤ) ≤ y → y < (canvas.h : ℤ) - f →
      resPx (glue_with_feather canvas tile .y_ttb f) x y = some (canvas.px x y)) := by
  have hfneg : ¬ (f ≤ 0) := by omega
  have hfn : (((max 1 (min f (OVERLAP_PX : ℤ))).toNat : ℤ)) = f := by
    have h256 : (OVERLAP_PX : ℤ) = 256 := by norm_num [OVERLAP_PX]
    rw [h256]
    omega
  constructor
  · intro hc' hwide x y hx1 hx2 hy0 hy1
    simp only [glue_with_feather]
    rw [if_neg hfneg]
    have hTw : (feather_tile2 canvas tile .x_ltr ((max 1 (min f (OVERLAP_PX : ℤ))).toNat)).w = TILE_PX := by
      rw [feather_tile2_w, htw]
    have hTh : (feather_tile2 canvas tile .x_ltr ((max 1 (min f (OVERLAP_PX : ℤ))).toNat)).h = TILE_PX := by
      rw [feather_tile2_h, hth]
    have hgl : glue canvas (feather_tile2 canvas tile .x_ltr ((max 1 (min f (OVERLAP_PX : ℤ))).toNat)) .x_ltr = .ok
        (((Ras.mkFill (canvas.w + ADVANCE_PX) canvas.h ((0, 0, 0) : Pix)).paste canvas 0 0).paste
          ((feather_tile2 canvas tile .x_ltr ((max 1 (min f (OVERLAP_PX : ℤ))).toNat)).crop
            ((HALF_PX : ℤ) - (OVERLAP_PX : ℤ)) 0 ((HALF_PX : ℤ) + (ADVANCE_PX : ℤ)) (TILE_PX : ℤ))
          ((canvas.w : ℤ) - (OVERLAP_PX : ℤ)) 0) := by
      simp only [glue, tile_patch_for_overlap_glue]
      rw [if_neg (by simp [hc']), if_neg (by simp [hTw, hTh])]
    rw [hgl]
    simp only [resPx]
    refine congrArg some ?_
    rw [Ras.paste_px_in _ _ _ _ _ _ (by
        simp only [Ras.paste_w, Ras.paste_h, Ras.mkFill_w, Ras.mkFill_h, Ras.crop_w, Ras.crop_h,
          TILE_PX, HALF_PX, OVERLAP_PX, ADVANCE_PX] at *; omega),
      Ras.crop_px_in _ _ _ _ _ _ _ (by
        simp only [hTw, hTh, TILE_PX, HALF_PX, OVERLAP_PX, ADVANCE_PX] at *; omega)]
    simp only [feather_tile2]
    rw [Ras.paste_px_in _ _ _ _ _ _ (by
        simp only [feather_blended_w_x canvas tile .x_ltr _ (Or.inl rfl),
          feather_blended_h_x canvas tile .x_ltr _ (Or.inl rfl), htw, hth,
          TILE_PX, HALF_PX, OVERLAP_PX, ADVANCE_PX] at *; omega)]
    simp only [feather_blended, compositeImg, overlap_crops_for_blend]
    rw [Ras.paste_px_out _ _ _ _ _ _ (by
        simp only [Ras.crop_w, Ras.crop_h, Ras.mkFill_w, Ras.mkFill_h,
          TILE_PX, HALF_PX, OVERLAP_PX, ADVANCE_PX] at *; omega)]
    set u : ℤ := x - ((canvas.w : ℤ) - (OVERLAP_PX : ℤ)) + ((HALF_PX : ℤ) - (OVERLAP_PX : ℤ)) -
        ((HALF_PX : ℤ) - (OVERLAP_PX : ℤ)) with hu
    set v : ℤ := y - 0 + 0 - 0 with hv
    rw [Ras.crop_px_in canvas _ _ _ _ _ _ (by
        simp only [TILE_PX, HALF_PX, OVERLAP_PX, ADVANCE_PX] at *; omega)]
    rw [show u + ((canvas.w : ℤ) - (OVERLAP_PX : ℤ)) = x by rw [hu]; ring,
      show v + (0 : ℤ) = y by rw [hv]; ring]
    obtain ⟨hr, hg, hb⟩ := hpix x y
    simp only [Ras.mkFill]
    rw [blendChan_zero _ _ hr, blendChan_zero _ _ hg, blendChan_zero _ _ hb]
    rfl
  · intro hc' hwide x y hx0 hx1 hy1 hy2
    simp only [glue_with_feather]
    rw [if_neg hfneg]
    have hTw : (feather_tile2 canvas tile .y_ttb ((max 1 (min f (OVERLAP_PX : ℤ))).toNat)).w = TILE_PX := by
      rw [feather_tile2_w, htw]
    have hTh : (feather_tile2 canvas tile .y_ttb ((max 1 (min f (OVERLAP_PX : ℤ))).toNat)).h = TILE_PX := by
      rw [feather_tile2_h, hth]
    have hgl : glue canvas (feather_tile2 canvas tile .y_ttb ((max 1 (min f (OVERLAP_PX : ℤ))).toNat)) .y_ttb = .ok
        (((Ras.mkFill canvas.w (canvas.h + ADVANCE_PX) ((0, 0, 0) : Pix)).paste canvas 0 0).paste
          ((feather_tile2 canvas tile .y_ttb ((max 1 (min f (OVERLAP_PX : ℤ))).toNat)).crop
            0 ((HALF_PX : ℤ) - (OVERLAP_PX : ℤ)) (TILE_PX : ℤ) ((HALF_PX : ℤ) + (ADVANCE_PX : ℤ)))
          0 ((canvas.h : ℤ) - (OVERLAP_PX : ℤ))) := by
      simp only [glue, tile_patch_for_overlap_glue]
      rw [if_neg (by simp [hc']), if_neg (by simp [hTw, hTh])]
    rw [hgl]
    simp only [resPx]
    refine congrArg some ?_
    rw [Ras.paste_px_in _ _ _ _ _ _ (by
        simp only [Ras.paste_w, Ras.paste_h, Ras.mkFill_w, Ras.mkFill_h, Ras.crop_w, Ras.crop_h,
          TILE_PX, HALF_PX, OVERLAP_PX, ADVANCE_PX] at *; omega),
      Ras.crop_px_in _ _ _ _ _ _ _ (by
        simp only [hTw, hTh, TILE_PX, HALF_PX, OVERLAP_PX, ADVANCE_PX] at *; omega)]
    simp only [feather_tile2]
    rw [Ras.paste_px_in _ _ _ _ _ _ (by
        simp only [feather_blended_w_y canvas tile .y_ttb _ (Or.inl rfl),
          feather_blended_h_y canvas tile .y_ttb _ (Or.inl rfl), htw, hth,
          TILE_PX, HALF_PX, OVERLAP_PX, ADVANCE_PX] at *; omega)]
    simp only [feather_blended, compositeImg, overlap_crops_for_blend]
    rw [Ras.paste_px_out _ _ _ _ _ _ (by
        simp only [Ras.crop_w, Ras.crop_h, Ras.mkFill_w, Ras.mkFill_h,
          TILE_PX, HALF_PX, OVERLAP_PX, ADVANCE_PX] at *; omega)]
    set u : ℤ := x - 0 + 0 - 0 with hu
    set v : ℤ := y - ((canvas.h : ℤ) - (OVERLAP_PX : ℤ)) + ((HALF_PX : ℤ) - (OVERLAP_PX : ℤ)) -
        ((HALF_PX : ℤ) - (OVERLAP_PX : ℤ)) with hv
    rw [Ras.crop_px_in canvas _ _ _ _ _ _ (by
        simp only [TILE_PX, HALF_PX, OVERLAP_PX, ADVANCE_PX] at *; omega)]
    rw [show u + (0 : ℤ) = x by rw [hu]; ring,
      show v + ((canvas.h : ℤ) - (OVERLAP_PX : ℤ)) = y by rw [hv]; ring]
    obtain ⟨hr, hg, hb⟩ := hpix x y
    simp only [Ras.mkFill]
    rw [blendChan_zero _ _ hr, blendChan_zero _ _ hg, blendChan_zero _ _ hb]
    rfl

/-- Counterexample for C10: in the reverse mode `x_rtl` with
`featherPx = 16`, the output pixel `(600, 0)` lies in the glued canvas's
overlap strip `[512, 768)`, more than 16 pixels from either end, yet it
equals the white tile's pixel, not the old black canvas pixel: the claim
that the overlap strip outside the ramp consists of old canvas pixels is
false for reverse modes. -/
theorem C10_counterexample_reverse_overlap_is_tile :
    resPx (glue_with_feather canvasBlack tileWhite Mode.x_rtl 16) 600 0 =
      some ((255, 255, 255) : Pix) ∧
    canvasBlack.px 600 0 = ((0, 0, 0) : Pix) := by
  constructor
  · decide
  · decide

/-- Witness for C10 (amended): the forward-mode overlap-outside-ramp
property applied at a concrete canvas, tile and feather width. -/
theorem C10_feather_overlap_outside_ramp_witness :
    ((1 : ℤ) ≤ 16 ∧ (16 : ℤ) ≤ 255 ∧ tileDark.w = TILE_PX ∧ tileDark.h = TILE_PX ∧
      canvasGray.h = TILE_PX ∧ OVERLAP_PX ≤ canvasGray.w) ∧
    resPx (glue_with_feather canvasGray tileDark Mode.x_ltr 16) 800 0 =
      some (canvasGray.px 800 0) := by
  refine ⟨⟨by norm_num, by norm_num, rfl, rfl, rfl,
    by norm_num [OVERLAP_PX, canvasGray, Ras.mkFill_w]⟩, ?_⟩
  exact (C10_feather_overlap_outside_ramp canvasGray tileDark 16 (by norm_num) (by norm_num)
      rfl rfl (fun _ _ => ⟨by norm_num [canvasGray, Ras.mkFill],
        by norm_num [canvasGray, Ras.mkFill], by norm_num [canvasGray, Ras.mkFill]⟩)).1
    rfl (by norm_num [OVERLAP_PX, canvasGray, Ras.mkFill_w]) 800 0
    (by norm_num [OVERLAP_PX, canvasGray, Ras.mkFill_w])
    (by norm_num [canvasGray, Ras.mkFill_w])
    (by norm_num) (by norm_num [TILE_PX])

/-- `session_state.SessionState`: the persisted session metadata, with
the dataclass defaults. -/
structure SessionState where
  session_id : String
  session_root : String
  canvas_filename : String := "canvas_latest.png"
  session_state_filename : String := "session_state.json"
  mode : Mode := .x_ltr
  tile_px : ℕ := 1024
  band_px : ℕ := 512
  overlap_px : ℕ := 256
  advance_px : ℕ := 256
  ext_px : ℕ := 256
  canvas_width_px_expected : ℕ := 1024
  canvas_height_px_expected : ℕ := 1024
  step_index_current : ℕ := 0
deriving DecidableEq

/-- `ExquisiteSession.create`: validate the initial canvas is exactly
`TILE_PX x TILE_PX` and build the persisted `SessionState`, passing
exactly the fields the source passes (`tile_px`, `ext_px = EXT_PX`,
`band_px`, the canvas dimensions and step index 0) and leaving every
other field at its dataclass default.  The directory creation and the
atomic writes of the canvas, step-0 snapshot and state file carry no
further state and are omitted from the model. -/
def ExquisiteSession_create (session_id session_root : String) (mode : Mode) (img : Img) :
    Except String SessionState :=
  if (img.w, img.h) ≠ (TILE_PX, TILE_PX) then .error "Initial canvas must be TILE_PX x TILE_PX"
  else .ok { session_id := session_id, session_root := session_root, mode := mode,
             tile_px := TILE_PX, ext_px := EXT_PX, band_px := BAND_PX,
             canvas_width_px_expected := img.w, canvas_height_px_expected := img.h,
             step_index_current := 0 }

/-- C9: every session produced by `ExquisiteSession.create` records
`ext_px = 512` (the module's `EXT_PX = ADVANCE_PX`) but leaves
`advance_px` at the `SessionState` default of 256, so the stored
`advance_px` equals neither `ext_px` (violating the declared invariant
that they must be equal) nor the `ADVANCE_PX = 512` growth that `glue`
applies per committed step. -/
theorem C9_create_advance_px_inconsistent (sid root : String) (mode : Mode) (img : Img)
    (hw : img.w = TILE_PX) (hh : img.h = TILE_PX) :
    ∃ s, ExquisiteSession_create sid root mode img = .ok s ∧
      s.ext_px = 512 ∧ s.advance_px = 256 ∧ s.advance_px ≠ s.ext_px ∧
      ADVANCE_PX = 512 ∧ s.advance_px ≠ ADVANCE_PX := by
  refine ⟨{ session_id := sid, session_root := root, mode := mode, tile_px := TILE_PX,
            ext_px := EXT_PX, band_px := BAND_PX, canvas_width_px_expected := img.w,
            canvas_height_px_expected := img.h, step_index_current := 0 },
    ?_, rfl, rfl, (by decide : (256 : ℕ) ≠ 512), rfl, (by decide : (256 : ℕ) ≠ ADVANCE_PX)⟩
  simp only [ExquisiteSession_create]
  rw [if_neg (by simp [hw, hh])]

/-- Witness for C9: the metadata inconsistency at a concrete session. -/
theorem C9_create_advance_px_inconsistent_witness :
    canvasGray.w = TILE_PX ∧ canvasGray.h = TILE_PX ∧
    ∃ s, ExquisiteSession_create "sid" "root" Mode.x_ltr canvasGray = .ok s ∧
      s.ext_px = 512 ∧ s.advance_px = 256 := by
  refine ⟨rfl, rfl, ?_⟩
  obtain ⟨s, hok, h1, h2, -, -, -⟩ :=
    C9_create_advance_px_inconsistent "sid" "root" .x_ltr canvasGray rfl rfl
  exact ⟨s, hok, h1, h2⟩

/-- Python exceptions relevant to the step pipeline: the
`GeneratorError` hierarchy of `api.client`, the `AttributeError` raised
by calling the nonexistent `Image.get_flattened_data`, and `ValueError`
with a message. -/
inductive PyErr where
  | generatorTransient
  | generatorPermanent
  | generatorSafety
  | generatorBilling
  | attributeError
  | valueError (msg : String)
deriving DecidableEq

/-- Whether an exception is caught by `except GeneratorError`. -/
def PyErr.isGeneratorError : PyErr → Bool
  | .generatorTransient | .generatorPermanent | .generatorSafety | .generatorBilling => true
  | _ => false

inductive StepStatus where
  | committed
  | rejected
deriving DecidableEq

/-- `step.StepResult`. -/
structure StepResult where
  status : StepStatus
  mode : Mode
  step_index : ℕ
  canvas_before_size : ℕ × ℕ
  canvas_after_size : ℕ × ℕ
  rejection_reason : Option String := none

/-- `step._post_enforce_keep_into_tile`: paste only the far KEEP region
(`HALF_PX - OVERLAP_PX` thick) of the band into the tile. -/
def post_enforce_keep_into_tile (tile band : Img) (mode : Mode) : Img :=
  let keep_px : ℤ := (HALF_PX : ℤ) - OVERLAP_PX
  match mode with
  | .x_ltr => tile.paste (band.crop 0 0 keep_px (TILE_PX : ℤ)) 0 0
  | .x_rtl => tile.paste (band.crop ((BAND_PX : ℤ) - keep_px) 0 (BAND_PX : ℤ) (TILE_PX : ℤ))
      ((TILE_PX : ℤ) - keep_px) 0
  | .y_ttb => tile.paste (band.crop 0 0 (TILE_PX : ℤ) keep_px) 0 0
  | .y_btt => tile.paste (band.crop 0 ((BAND_PX : ℤ) - keep_px) (TILE_PX : ℤ) (BAND_PX : ℤ))
      0 ((TILE_PX : ℤ) - keep_px)

/-- `step.execute_step_in_memory`.  The `client` argument is the outcome
of the single `client.generate_tile` call for this step (an exception
becomes `.error`); `except GeneratorError` and `except Exception` are
the two rejected branches.  The `try` around the post-enforce can only
raise for an unknown mode, which the closed `Mode` type rules out.  When
`enforce_band_identity` is set, the source reaches
`cond_half.crop(box).get_flattened_data()` — but PIL images have no
`get_flattened_data` method, so an `AttributeError` escalates uncaught
before any comparison happens; the model returns `.error
.attributeError` there. -/
def execute_step_in_memory (canvas : Img) (mode : Mode) (step_index : ℕ)
    (client : Except PyErr Img) (enforce_band_identity post_enforce_band_identity : Bool) :
    Except PyErr (Img × StepResult) :=
  let w := canvas.w
  let h := canvas.h
  if (mode = .x_ltr ∨ mode = .x_rtl) ∧ h ≠ TILE_PX then
    .ok (canvas, ⟨.rejected, mode, step_index, (w, h), (w, h), some "non_growing_axis_not_1024"⟩)
  else if (mode = .y_ttb ∨ mode = .y_btt) ∧ w ≠ TILE_PX then
    .ok (canvas, ⟨.rejected, mode, step_index, (w, h), (w, h), some "non_growing_axis_not_1024"⟩)
  else
    match extract_conditioning_band canvas mode with
    | .error e => .error (.valueError e)
    | .ok band =>
      match client with
      | .error e =>
        if e.isGeneratorError then
          .ok (canvas, ⟨.rejected, mode, step_index, (w, h), (w, h), some "generator_error"⟩)
        else
          .ok (canvas, ⟨.rejected, mode, step_index, (w, h), (w, h), some "generator_error_unknown"⟩)
      | .ok tile0 =>
        if (tile0.w, tile0.h) ≠ (TILE_PX, TILE_PX) then
          .ok (canvas, ⟨.rejected, mode, step_index, (w, h), (w, h), some "tile_dim_mismatch"⟩)
        else
          let tile := if post_enforce_band_identity then
            post_enforce_keep_into_tile tile0 band mode else tile0
          match split_tile tile mode with
          | .error e => .error (.valueError e)
          | .ok _pair =>
            if enforce_band_identity then
              .error .attributeError
            else
              match glue canvas tile mode with
              | .error e => .error (.valueError e)
              | .ok canvas_next =>
                if (canvas_next.w, canvas_next.h) ≠ expected_next_canvas_size canvas mode then
                  .ok (canvas, ⟨.rejected, mode, step_index, (w, h), (w, h),
                    some "canvas_dim_invariant_violation"⟩)
                else
                  .ok (canvas_next, ⟨.committed, mode, step_index, (w, h),
                    (canvas_next.w, canvas_next.h), none⟩)

/-- C6 (code bug): with band-identity enforcement enabled and a
candidate whose conditioning half genuinely differs from the band (white
tile over a black canvas), `execute_step_in_memory` does NOT recover
locally into a rejected `band_identity_violation` result: the identity
check calls the nonexistent `Image.get_flattened_data`, so an
`AttributeError` escalates to the caller. -/
theorem C6_band_identity_check_raises_attribute_error :
    execute_step_in_memory canvasBlack Mode.x_ltr 1 (.ok tileWhite) true false =
      .error .attributeError := by
  rfl

/-- A candidate score: `float("-inf")` or a finite score. -/
inductive Score where
  | negInf
  | val (q : ℚ)
deriving DecidableEq

/-- Strict comparison of scores (`-inf` below every finite value). -/
def Score.lt : Score → Score → Bool
  | _, .negInf => false
  | .negInf, .val _ => true
  | .val a, .val b => decide (a < b)

/-- Python's `max(range(len(scores)), key=lambda i: scores[i])`: the
first index attaining the maximum (later indices replace the current
best only on a strictly larger key). -/
def bestIndex (scores : List Score) : ℕ :=
  (List.range scores.length).foldl
    (fun best i => if Score.lt (scores.getD best .negInf) (scores.getD i .negInf) then i else best) 0

/-- `session._extract_scoring_strips`: the canvas frontier overlap strip
and the generated-side strip adjacent to the seam. -/
def extract_scoring_strips (canvas_rgb tile_rgb : Img) (mode : Mode) :
    Except String (Img × Img) :=
  let cw := canvas_rgb.w
  let ch := canvas_rgb.h
  match mode with
  | .x_ltr | .x_rtl =>
    if ch ≠ TILE_PX then .error "canvas height must be TILE_PX for x modes" else
    match mode with
    | .x_ltr => .ok (canvas_rgb.crop ((cw : ℤ) - OVERLAP_PX) 0 (cw : ℤ) (TILE_PX : ℤ),
        tile_rgb.crop (HALF_PX : ℤ) 0 ((HALF_PX : ℤ) + OVERLAP_PX) (TILE_PX : ℤ))
    | _ => .ok (canvas_rgb.crop 0 0 (OVERLAP_PX : ℤ) (TILE_PX : ℤ),
        tile_rgb.crop ((HALF_PX : ℤ) - OVERLAP_PX) 0 (HALF_PX : ℤ) (TILE_PX : ℤ))
  | .y_ttb | .y_btt =>
    if cw ≠ TILE_PX then .error "canvas width must be TILE_PX for y modes" else
    match mode with
    | .y_ttb => .ok (canvas_rgb.crop 0 ((ch : ℤ) - OVERLAP_PX) (TILE_PX : ℤ) (ch : ℤ),
        tile_rgb.crop 0 (HALF_PX : ℤ) (TILE_PX : ℤ) ((HALF_PX : ℤ) + OVERLAP_PX))
    | _ => .ok (canvas_rgb.crop 0 0 (TILE_PX : ℤ) (OVERLAP_PX : ℤ),
        tile_rgb.crop 0 ((HALF_PX : ℤ) - OVERLAP_PX) (TILE_PX : ℤ) (HALF_PX : ℤ))

/-- The row-major pixel sequence an image's `tobytes()` serializes. -/
def tobytesList (a : Img) : List Pix :=
  (List.range (a.w * a.h)).map fun i => a.px ((i % a.w : ℕ) : ℤ) ((i / a.w : ℕ) : ℤ)

/-- The durable filesystem effects of one `execute_step_real` call, in
program order.  `candidateScores` carries the persisted scores report
(scores list and best index) of `candidate_scores.json`. -/
inductive WriteEvent where
  | mkdirStepDir
  | promptTxt
  | conditioningBand
  | canvasBefore
  | canvasAfter
  | mkdirCandidates
  | candidateTile (i : ℕ)
  | candidateScores (scores : List Score) (best : ℕ)
  | tilePatch
  | condHalf
  | tileFull
  | newHalf
  | canvasPointer
  | sessionMetadata
  | commitMarker
deriving DecidableEq

/-- `session.DiskStepResult` (the step directory path is identified by
its step index). -/
structure DiskStepResult where
  status : StepStatus
  session_id : String
  step_index : ℕ
  canvas_before_size : ℕ × ℕ
  canvas_after_size : ℕ × ℕ
  step_dir_index : ℕ

/-- The accumulating per-candidate state of `execute_step_real`'s loop:
the `candidates`, `scores` and `errors` lists plus the cached canvas
scoring strip. -/
structure LoopState where
  candidates : List Img
  scores : List Score
  errors : List (Option String)
  canvas_strip_cached : Option Img

/-- One iteration of `execute_step_real`'s candidate loop for index `k`.
`client idx` is the outcome of `client.generate_tile(...,
step_index=idx)`; `except GeneratorError`/`except Exception` append a
black placeholder with score `-inf`; a wrong-sized tile, a band-identity
mismatch (`tobytes()` comparison) or a scoring error appends the tile
with `-inf`; otherwise the weighted edge score is recorded.  The
`split_tile` call sits outside any `try` in the source, so its
`ValueError` would escalate (it cannot fire here, the size was just
checked). -/
def step_real_candidate (canvas band : Img) (mode : Mode)
    (client : ℕ → Except PyErr Img) (enforce post : Bool) (step_index_next : ℕ)
    (st : LoopState) (k : ℕ) : Except PyErr LoopState :=
  match client (step_index_next * 1000 + k) with
  | .error e =>
    if e.isGeneratorError then
      .ok { st with candidates := st.candidates ++ ([Ras.mkFill TILE_PX TILE_PX ((0, 0, 0) : Pix)] : List Img),
                    scores := st.scores ++ [.negInf],
                    errors := st.errors ++ [some "GeneratorError"] }
    else
      .ok { st with candidates := st.candidates ++ ([Ras.mkFill TILE_PX TILE_PX ((0, 0, 0) : Pix)] : List Img),
                    scores := st.scores ++ [.negInf],
                    errors := st.errors ++ [some "Exception"] }
  | .ok tile0 =>
    if (tile0.w, tile0.h) ≠ (TILE_PX, TILE_PX) then
      .ok { st with candidates := st.candidates ++ [tile0],
                    scores := st.scores ++ [.negInf],
                    errors := st.errors ++ [some "BadTileSize"] }
    else
      let tile :=
        if post then
          match mode with
          | .x_ltr => tile0.paste band 0 0
          | .x_rtl => tile0.paste band 512 0
          | .y_ttb => tile0.paste band 0 0
          | .y_btt => tile0.paste band 0 512
        else tile0
      match split_tile tile mode with
      | .error e => .error (.valueError e)
      | .ok pair =>
        if enforce && !(tobytesList pair.1 == tobytesList band) then
          .ok { st with candidates := st.candidates ++ [tile],
                        scores := st.scores ++ [.negInf],
                        errors := st.errors ++ [some "BandIdentityMismatch"] }
        else
          match extract_scoring_strips canvas tile mode with
          | .error _ =>
            .ok { st with candidates := st.candidates ++ [tile],
                          scores := st.scores ++ [.negInf],
                          errors := st.errors ++ [some "ScoreError"] }
          | .ok strips =>
            let cached := st.canvas_strip_cached.getD strips.1
            match edge_weighted_edge_mse_score cached strips.2 mode with
            | .error _ =>
              .ok { st with candidates := st.candidates ++ [tile],
                            scores := st.scores ++ [.negInf],
                            errors := st.errors ++ [some "ScoreError"],
                            canvas_strip_cached := some cached }
            | .ok q =>
              .ok { candidates := st.candidates ++ [tile],
                    scores := st.scores ++ [.val q],
                    errors := st.errors ++ [none],
                    canvas_strip_cached := some cached }

/-- `session.ExquisiteSession.execute_step_real`, returning the
`DiskStepResult`, the session state after the call, the authoritative
canvas content after the call, and the ordered list of durable
filesystem effects.  The step directory is created before the
precondition checks; rejected paths return with no further writes; the
committed path writes every artifact, then the canvas pointer, then the
session metadata, then the commit marker last.  The artifact-stage
`split_tile`/`_tile_patch_for_overlap_glue` recomputations on the
winning tile cannot fail (glue just validated the same 1024x1024 size)
and only produce the tilePatch/condHalf/tileFull/newHalf writes. -/
def execute_step_real (state : SessionState) (canvasFile : Img)
    (client : ℕ → Except PyErr Img) (enforce post : Bool)
    (num_candidates feather_px : ℤ) :
    Except PyErr (DiskStepResult × SessionState × Img × List WriteEvent) :=
  let w0 := canvasFile.w
  let h0 := canvasFile.h
  let mode := state.mode
  let step_index_next := state.step_index_current + 1
  if (mode = .x_ltr ∨ mode = .x_rtl) ∧ h0 ≠ TILE_PX then
    .ok (⟨.rejected, state.session_id, step_index_next, (w0, h0), (w0, h0), step_index_next⟩,
      state, canvasFile, [.mkdirStepDir])
  else if (mode = .y_ttb ∨ mode = .y_btt) ∧ w0 ≠ TILE_PX then
    .ok (⟨.rejected, state.session_id, step_index_next, (w0, h0), (w0, h0), step_index_next⟩,
      state, canvasFile, [.mkdirStepDir])
  else
    match extract_conditioning_band canvasFile mode with
    | .error e => .error (.valueError e)
    | .ok band =>
      let n := (max 1 num_candidates).toNat
      match (List.range n).foldlM
          (step_real_candidate canvasFile band mode client enforce post step_index_next)
          ⟨[], [], [], none⟩ with
      | .error e => .error e
      | .ok st =>
        if st.candidates.isEmpty then
          .ok (⟨.rejected, state.session_id, step_index_next, (w0, h0), (w0, h0), step_index_next⟩,
            state, canvasFile, [.mkdirStepDir])
        else
          let best_i := bestIndex st.scores
          let tile_best := st.candidates.getD best_i (Ras.mkFill 0 0 ((0, 0, 0) : Pix))
          match glue_with_feather canvasFile tile_best mode feather_px with
          | .error e => .error (.valueError e)
          | .ok canvas_next =>
            let w1 := canvas_next.w
            let h1 := canvas_next.h
            if (w1, h1) ≠ expected_next_canvas_size canvasFile mode then
              .ok (⟨.rejected, state.session_id, step_index_next, (w0, h0), (w0, h0), step_index_next⟩,
                state, canvasFile, [.mkdirStepDir])
            else
              .ok (⟨.committed, state.session_id, step_index_next, (w0, h0), (w1, h1), step_index_next⟩,
                { state with canvas_width_px_expected := w1,
                             canvas_height_px_expected := h1,
                             step_index_current := step_index_next },
                canvas_next,
                ([.mkdirStepDir, .promptTxt, .conditioningBand, .canvasBefore, .canvasAfter,
                  .mkdirCandidates] ++
                 (List.range st.candidates.length).map WriteEvent.candidateTile ++
                 [.candidateScores st.scores best_i, .tilePatch, .condHalf, .tileFull, .newHalf,
                  .canvasPointer, .sessionMetadata]) ++ [.commitMarker])

/-- The status of an `execute_step_real` outcome. -/
def outStatus (r : Except PyErr (DiskStepResult × SessionState × Img × List WriteEvent)) :
    Option StepStatus :=
  match r with
  | .ok o => some o.1.status
  | .error _ => none

/-- The persisted step index after an `execute_step_real` outcome. -/
def outIndexAfter (r : Except PyErr (DiskStepResult × SessionState × Img × List WriteEvent)) :
    Option ℕ :=
  match r with
  | .ok o => some o.2.1.step_index_current
  | .error _ => none

/-- The reported canvas-after size of an `execute_step_real` outcome. -/
def outAfterSize (r : Except PyErr (DiskStepResult × SessionState × Img × List WriteEvent)) :
    Option (ℕ × ℕ) :=
  match r with
  | .ok o => some o.1.canvas_after_size
  | .error _ => none

/-- The write trace of an `execute_step_real` outcome. -/
def outTrace (r : Except PyErr (DiskStepResult × SessionState × Img × List WriteEvent)) :
    Option (List WriteEvent) :=
  match r with
  | .ok o => some o.2.2.2
  | .error _ => none

/-- C8: in every `execute_step_real` call that returns a committed
result, the terminal commit marker is the last durable write — it is
written strictly after all step artifacts, after the replacement of the
canvas pointer and after the session metadata update, and it occurs
nowhere earlier in the trace. -/
theorem C8_commit_marker_is_last_write (state : SessionState) (canvasFile : Img)
    (client : ℕ → Except PyErr Img) (enforce post : Bool) (nc f : ℤ)
    (res : DiskStepResult) (st' : SessionState) (cv : Img) (tr : List WriteEvent)
    (h : execute_step_real state canvasFile client enforce post nc f = .ok (res, st', cv, tr))
    (hcom : res.status = .committed) :
    tr.getLast? = some .commitMarker ∧
    WriteEvent.canvasPointer ∈ tr.dropLast ∧
    WriteEvent.sessionMetadata ∈ tr.dropLast ∧
    WriteEvent.commitMarker ∉ tr.dropLast := by
  simp only [execute_step_real] at h
  split at h
  · simp only [Except.ok.injEq, Prod.mk.injEq] at h
    rw [← h.1] at hcom
    simp at hcom
  · split at h
    · simp only [Except.ok.injEq, Prod.mk.injEq] at h
      rw [← h.1] at hcom
      simp at hcom
    · split at h
      · cases h
      · split at h
        · cases h
        · split at h
          · simp only [Except.ok.injEq, Prod.mk.injEq] at h
            rw [← h.1] at hcom
            simp at hcom
          · split at h
            · cases h
            · split at h
              · simp only [Except.ok.injEq, Prod.mk.injEq] at h
                rw [← h.1] at hcom
                simp at hcom
              · simp only [Except.ok.injEq, Prod.mk.injEq] at h
                rw [← h.2.2.2]
                refine ⟨List.getLast?_concat _, ?_, ?_, ?_⟩
                · rw [List.dropLast_concat]
                  simp
                · rw [List.dropLast_concat]
                  simp
                · rw [List.dropLast_concat]
                  simp

/-- A concrete session state in mode `x_ltr` at step index 0. -/
def stateX : SessionState := { session_id := "sess", session_root := "root", mode := Mode.x_ltr }

/-- A generator client that always raises a transient `GeneratorError`. -/
def failClient : ℕ → Except PyErr Img := fun _ => .error .generatorTransient

/-- Witness for C8: a concrete committed call whose trace ends with the
commit marker. -/
theorem C8_commit_marker_is_last_write_witness :
    ∃ res st' cv tr,
      execute_step_real stateX canvasGray failClient true true 1 0 = .ok (res, st', cv, tr) ∧
      res.status = .committed ∧
      tr.getLast? = some .commitMarker ∧ WriteEvent.commitMarker ∉ tr.dropLast := by
  refine ⟨_, _, _, _, rfl, rfl, ?_, ?_⟩
  · exact (C8_commit_marker_is_last_write stateX canvasGray failClient true true 1 0
      _ _ _ _ rfl rfl).1
  · exact (C8_commit_marker_is_last_write stateX canvasGray failClient true true 1 0
      _ _ _ _ rfl rfl).2.2.2

/-- C2 (code bug): with a generator that always raises, every candidate
fails its mandatory check and receives score `-inf`, yet
`execute_step_real` does not reject the step: the dead `if tile_best is
None` branch never fires (the candidates list always holds a black
placeholder), so the placeholder is glued and the step COMMITS — the
canvas pointer and metadata are written, the canvas grows to 1536x1024
and the step index advances, where the claim requires a rejection with
no mutation. -/
theorem C2_all_candidates_fail_step_still_commits :
    outStatus (execute_step_real stateX canvasGray failClient true true 1 0) = some .committed ∧
    outTrace (execute_step_real stateX canvasGray failClient true true 1 0) =
      some [.mkdirStepDir, .promptTxt, .conditioningBand, .canvasBefore, .canvasAfter,
        .mkdirCandidates, .candidateTile 0, .candidateScores [.negInf] 0, .tilePatch,
        .condHalf, .tileFull, .newHalf, .canvasPointer, .sessionMetadata, .commitMarker] ∧
    outIndexAfter (execute_step_real stateX canvasGray failClient true true 1 0) = some 1 ∧
    outAfterSize (execute_step_real stateX canvasGray failClient true true 1 0) =
      some (1536, 1024) := by
  exact ⟨rfl, rfl, rfl, rfl⟩

/-- C3 (code bug): retrying with an always-failing generator is not a
no-op: the first call already COMMITS (step index 1, canvas 1536 wide)
and a second call on the resulting state and canvas commits again (step
index 2, canvas 2048 wide), so "repeating the call with an always-failing
generator never advances the step index nor mutates the canvas" is false
on the code. -/
theorem C3_always_failing_generator_still_advances :
    outIndexAfter (execute_step_real stateX canvasGray failClient true true 1 0) = some 1 ∧
    outAfterSize (execute_step_real stateX canvasGray failClient true true 1 0) =
      some (1536, 1024) ∧
    (match execute_step_real stateX canvasGray failClient true true 1 0 with
     | .ok (_, st1, cv1, _) =>
       outIndexAfter (execute_step_real st1 cv1 failClient true true 1 0) = some 2 ∧
       outAfterSize (execute_step_real st1 cv1 failClient true true 1 0) = some (2048, 1024)
     | .error _ => False) := by
  exact ⟨rfl, rfl, rfl, rfl⟩

end Imker
